import Mathlib

/-!
Verification development for the OpenCIDN caching registry proxy.

The Go sources are shallowly embedded: byte slices whose contents are only
passed around opaquely (manifest and blob bodies, link-file contents) are
modelled as `String`; the SHA-256 primitive, the JSON `mediaType` probe and
the `errcode.Errors` unmarshaller are external libraries and enter as
function parameters; the storage driver is modelled as a total key/value
map whose `PutContent` always succeeds (its failure modes belong to the
external driver, not to the code under verification); durations and
timestamps are `Int` nanoseconds exactly as Go's `time.Duration`.
-/

namespace OpenCIDN

/-- Go byte slices that the proxy treats opaquely are modelled as strings. -/
abbrev Bytes := String

/-- `time.Second` in nanoseconds, as Go's `time.Duration` arithmetic uses. -/
def second : Int := 1000000000

/-- Split a character list on a separator character. -/
def splitChars (sep : Char) : List Char → List (List Char)
  | [] => [[]]
  | c :: rest =>
    match splitChars sep rest with
    | [] => [[]]
    | h :: t => if c = sep then [] :: h :: t else (c :: h) :: t

/-- Go `strings.Split(s, sep)` for the one-character separators the code
uses, over the string's characters (kernel-computable, unlike
`String.splitOn`). -/
def goSplit (sep : Char) (s : String) : List String :=
  (splitChars sep s.data).map (fun l => String.mk l)

/-- Go `strings.HasPrefix` (kernel-computable, unlike
`String.startsWith`). -/
def goStartsWith (s pre : String) : Bool :=
  pre.data.isPrefixOf s.data

/-- Go `strings.Contains(s, c)` for the one-character needles the code
uses (kernel-computable, unlike `String.contains`). -/
def goContains (s : String) (c : Char) : Bool :=
  s.data.contains c

/-- The storage driver, reduced to the key/value contract the proxy uses:
`GetContent` is application, `PutContent` is `Storage.put`. -/
def Storage : Type := String → Option Bytes

/-- A storage with no keys. -/
def Storage.empty : Storage := fun _ => none

/-- `storageDriver.PutContent`: store `v` under key `k` (always succeeds in
the model; driver-level I/O failures are outside the embedded code). -/
def Storage.put (σ : Storage) (k : String) (v : Bytes) : Storage :=
  fun k2 => if k2 = k then some v else σ k2

/-- The in-memory manifest freshness map `maps.SyncMap[string, time.Time]`,
keyed by tag-link path, holding the last refresh instant (ns). -/
def FreshMap : Type := String → Option Int

/-- A freshness map with no entries. -/
def FreshMap.empty : FreshMap := fun _ => none

/-- `manifestCache.Store(key, now)`. -/
def FreshMap.store (m : FreshMap) (k : String) (t : Int) : FreshMap :=
  fun k2 => if k2 = k then some t else m k2

/-- `PathInfo` (crproxy.go): the parsed request descriptor.  Only the fields
the manifest path uses are carried. -/
structure PathInfo where
  host : String
  image : String
  manifests : String
  blobs : String := ""
  tagsList : Bool := false
deriving DecidableEq, Repr

/-- `manifestRevisionsCachePath` (crproxy_manifest.go): the revision link
file for a digest. -/
def manifestRevisionsCachePath (host image tagOrBlob : String) : String :=
  "/docker/registry/v2/repositories/" ++ host ++ "/" ++ image ++
    "/_manifests/revisions/sha256/" ++ tagOrBlob ++ "/link"

/-- `manifestTagCachePath` (crproxy_manifest.go): the tag link file. -/
def manifestTagCachePath (host image tagOrBlob : String) : String :=
  "/docker/registry/v2/repositories/" ++ host ++ "/" ++ image ++
    "/_manifests/tags/" ++ tagOrBlob ++ "/current/link"

/-- Modelled from the spec: the `blobCachePath` helper called by
crproxy_manifest.go is not among the provided sources.  The spec fixes its
layout as `/docker/registry/v2/blobs/sha256/{hex[0:2]}/{hex}/data`, keyed by
the hex digest alone, the `sha256:` prefix of link contents being stripped. -/
def blobCachePath (blob : String) : String :=
  let hex := if goStartsWith blob "sha256:" then blob.drop 7 else blob
  "/docker/registry/v2/blobs/sha256/" ++ hex.take 2 ++ "/" ++ hex ++ "/data"

/-- The mutable state `cacheManifestResponse` threads: the storage driver
plus the in-memory freshness map. -/
structure ManifestState where
  storage : Storage
  fresh : FreshMap

/-- `cacheManifestContent` (crproxy_manifest.go:105-138).  `sha` is the hex
SHA-256 of a body; `dur` is `c.manifestCacheDuration`; `now` is the instant
of `time.Now()`.  Returns the error message (if any) together with the
resulting state; on the hash-mismatch error the function returns before any
write, so the state is the input state. -/
def cacheManifestContent (sha : Bytes → String) (dur now : Int)
    (st : ManifestState) (info : PathInfo) (content : Bytes) :
    Option String × ManifestState :=
  let hash := sha content
  let isHash := goStartsWith info.manifests "sha256:"
  if isHash && info.manifests.drop 7 != hash then
    (some ("expected hash " ++ info.manifests.drop 7 ++ " is not same to " ++ hash), st)
  else
    let st1 :=
      if isHash then st
      else
        let tagLink := manifestTagCachePath info.host info.image info.manifests
        { storage := st.storage.put tagLink ("sha256:" ++ hash)
          fresh := if dur > 0 then st.fresh.store tagLink now else st.fresh }
    let revLink := manifestRevisionsCachePath info.host info.image hash
    let st2 := { st1 with storage := st1.storage.put revLink ("sha256:" ++ hash) }
    let st3 := { st2 with storage := st2.storage.put (blobCachePath hash) content }
    (none, st3)

/-- The read half of `serveCachedManifest` (crproxy_manifest.go:179-203):
resolve the link file, read the body from the blob store, and probe the
`mediaType` field (`parseMT` stands for the `json.Unmarshal` probe, `none`
meaning invalid JSON).  Returns `(digest, mediaType, body)` on a hit. -/
def lookupCachedManifest (parseMT : Bytes → Option String) (σ : Storage)
    (manifestLinkPath : String) : Option (String × String × Bytes) :=
  match σ manifestLinkPath with
  | none => none
  | some digestContent =>
    let digest := digestContent
    match σ (blobCachePath digest) with
    | none => none
    | some content =>
      match parseMT content with
      | none => none
      | some mt => some (digest, mt, content)

/-- `serveCachedManifest` (crproxy_manifest.go:179-216): on a hit the
response is written (implicit status 200) and, when the cache duration is
positive, the freshness map is touched with `now`. -/
def serveCachedManifest (parseMT : Bytes → Option String) (σ : Storage)
    (fresh : FreshMap) (dur now : Int) (manifestLinkPath : String) :
    Option (String × String × Bytes) × FreshMap :=
  match lookupCachedManifest parseMT σ manifestLinkPath with
  | none => (none, fresh)
  | some r => (some r, if dur > 0 then fresh.store manifestLinkPath now else fresh)

/-- The link path `tryFirstServeCachedManifest` and
`fallbackServeCachedManifest` use for a reference. -/
def manifestLinkPathFor (info : PathInfo) : String :=
  if goStartsWith info.manifests "sha256:" then
    manifestRevisionsCachePath info.host info.image (info.manifests.drop 7)
  else
    manifestTagCachePath info.host info.image info.manifests

/-- `tryFirstServeCachedManifest` (crproxy_manifest.go:140-162): for sha256
references the cache is consulted unconditionally; for tag references, only
when the cache duration is positive does the freshness map gate the cache
(`time.Since(last) > duration` means stale). -/
def tryFirstServeCachedManifest (parseMT : Bytes → Option String) (σ : Storage)
    (fresh : FreshMap) (dur now : Int) (info : PathInfo) :
    Option (String × String × Bytes) × FreshMap :=
  let isHash := goStartsWith info.manifests "sha256:"
  let manifestLinkPath := manifestLinkPathFor info
  if !isHash && dur > 0 then
    match fresh manifestLinkPath with
    | none => (none, fresh)
    | some last =>
      if now - last > dur then (none, fresh)
      else serveCachedManifest parseMT σ fresh dur now manifestLinkPath
  else
    serveCachedManifest parseMT σ fresh dur now manifestLinkPath

/-- `fallbackServeCachedManifest` (crproxy_manifest.go:164-177): never
serves the cache for a sha256 reference. -/
def fallbackServeCachedManifest (parseMT : Bytes → Option String) (σ : Storage)
    (fresh : FreshMap) (dur now : Int) (info : PathInfo) :
    Option (String × String × Bytes) × FreshMap :=
  let isHash := goStartsWith info.manifests "sha256:"
  if isHash then (none, fresh)
  else serveCachedManifest parseMT σ fresh dur now (manifestLinkPathFor info)

/-- The outcome of the upstream manifest request (`c.client.DoWithAuth`). -/
inductive Origin where
  | transportErr
  | resp (status : Int) (body : Bytes)
deriving DecidableEq, Repr

/-- What `cacheManifestResponse` writes to the client.  `cachedServe` is a
cache hit (no `WriteHeader` call, hence implicit status 200); `errorJson` is
`errcode.ServeJSON` with the named code; `forwarded` forwards the origin
status (after which the body is read and `cacheManifestContent` is
attempted; its error, if any, is recorded). -/
inductive Served where
  | cachedServe (digest mediaType : String) (content : Bytes)
  | errorJson (code : String)
  | forwarded (status : Int) (cacheErr : Option String)
deriving DecidableEq, Repr

/-- The HTTP status of a `Served` value: a cache hit never calls
`WriteHeader`, so Go replies 200; `errcode.ErrorCodeDenied` serves 403 and
`errcode.ErrorCodeUnknown` serves 500. -/
def Served.status : Served → Int
  | .cachedServe _ _ _ => 200
  | .errorJson c => if c = "DENIED" then 403 else 500
  | .forwarded s _ => s

/-- `cacheManifestResponse` (crproxy_manifest.go:29-103), for a GET request
(`isHead = false`) or HEAD.  Mirrors the source's control flow: cache-first
attempt, origin request, the 401/403, 4xx and 5xx fallback arms, then
header forwarding; the final `if resp.StatusCode >= StatusOK ||
resp.StatusCode < StatusMultipleChoices` of the source is identically true,
so every forwarded GET reads the body and calls `cacheManifestContent`. -/
def cacheManifestResponse (sha : Bytes → String) (parseMT : Bytes → Option String)
    (dur now : Int) (st : ManifestState) (info : PathInfo) (origin : Origin)
    (isHead : Bool) : Served × ManifestState :=
  match tryFirstServeCachedManifest parseMT st.storage st.fresh dur now info with
  | (some (d, mt, content), fresh2) =>
    (.cachedServe d mt content, { st with fresh := fresh2 })
  | (none, _) =>
    match origin with
    | .transportErr =>
      match fallbackServeCachedManifest parseMT st.storage st.fresh dur now info with
      | (some (d, mt, content), fresh2) =>
        (.cachedServe d mt content, { st with fresh := fresh2 })
      | (none, _) => (.errorJson "UNKNOWN", st)
    | .resp status body =>
      if status = 401 || status = 403 then
        match fallbackServeCachedManifest parseMT st.storage st.fresh dur now info with
        | (some (d, mt, content), fresh2) =>
          (.cachedServe d mt content, { st with fresh := fresh2 })
        | (none, _) => (.errorJson "DENIED", st)
      else
        let tryFallback :=
          (400 ≤ status ∧ status < 500) ∨ (status < 200 ∨ 500 ≤ status)
        match (if tryFallback then
                 fallbackServeCachedManifest parseMT st.storage st.fresh dur now info
               else (none, st.fresh)) with
        | (some (d, mt, content), fresh2) =>
          (.cachedServe d mt content, { st with fresh := fresh2 })
        | (none, _) =>
          if isHead then (.forwarded status none, st)
          else
            match cacheManifestContent sha dur now st info body with
            | (some e, st2) => (.forwarded status (some e), st2)
            | (none, st2) => (.forwarded status none, st2)

/-! ## Token and attribute model (pkg/token/encoding.go) -/

/-- `token.Attribute` (pkg/token/encoding.go:41-65). -/
structure Attribute where
  userID : Int := 0
  registryID : Int := 0
  tokenID : Int := 0
  noRateLimit : Bool := false
  rateLimitPerSecond : Nat := 0
  noAllowlist : Bool := false
  noBlock : Bool := false
  allowTagsList : Bool := false
  cacheFirst : Bool := false
  weight : Int := 0
  host : String := ""
  image : String := ""
  noBlobsAgent : Bool := false
  blobsAgentURL : String := ""
  alwaysRedirect : Bool := false
  block : Bool := false
  blockMessage : String := ""
deriving DecidableEq, Repr

/-- `token.Token` (pkg/token/encoding.go:30-39); `ExpiresAt` is modelled as
a unix-nanosecond instant. -/
structure Token where
  expiresAt : Int := 0
  scope : String := ""
  service : String := ""
  account : String := ""
  ip : String := ""
  image : String := ""
  attr : Attribute := {}
deriving DecidableEq, Repr

/-! ## Policy resolver (pkg/auth/auth.go) -/

/-- `model.TokenAttr`: the attribute payload of a stored token record (the
`model` package is not among the sources; its fields are those auth.go
reads). -/
structure TokenAttr where
  noRateLimit : Bool := false
  rateLimitPerSecond : Nat := 0
  weight : Int := 0
  cacheFirst : Bool := false
  noAllowlist : Bool := false
  noBlock : Bool := false
  allowTagsList : Bool := false
  blobsAgentURL : String := ""
  noBlobsAgent : Bool := false
  alwaysRedirect : Bool := false
  block : Bool := false
  blockMessage : String := ""
deriving DecidableEq, Repr

/-- `model.Token`: a stored token record. -/
structure ModelToken where
  userID : Int := 0
  tokenID : Int := 0
  data : TokenAttr := {}
deriving DecidableEq, Repr

/-- `model.Registry.Data`: per-registry policy record.  `specialIPs` models
the Go map (the `len != 0` guard before the map lookup in `getToken` is
equivalent to the lookup alone). -/
structure RegistryData where
  ttlSecond : Int := 0
  source : String := ""
  allowPrefix : Bool := false
  allowAnonymous : Bool := false
  anonymous : TokenAttr := {}
  specialIPs : String → Option TokenAttr := fun _ => none
  enableAllowlist : Bool := false
  allowlist : List String := []
  allowlisBlockMessage : String := ""

/-- `model.Registry`. -/
structure Registry where
  registryID : Int := 0
  userID : Int := 0
  data : RegistryData := {}

/-- `registryCache` (auth.go:287-290): the cached registry entry; the
`hostmatcher.Matcher` is abstracted to a predicate on `host/image`. -/
structure RegistryCacheEntry where
  registry : Registry
  imagesMatcher : Option (String → Bool) := none

/-- The `imc.Cache` in-memory TTL cache, observed through what the resolver
does with it: each present entry carries the item (`responseItem`, an error
or a value) and the TTL (ns) it was inserted with. -/
def IMCCache (κ α : Type) : Type := κ → Option (Except String α × Int)

/-- An empty `imc.Cache`. -/
def IMCCache.empty {κ α : Type} : IMCCache κ α := fun _ => none

/-- `cache.SetWithTTL(k, item, ttl)`. -/
def IMCCache.set {κ α : Type} [DecidableEq κ] (c : IMCCache κ α) (k : κ)
    (v : Except String α) (ttl : Int) : IMCCache κ α :=
  fun k2 => if k2 = k then some (v, ttl) else c k2

/-- `AuthManager.getRegistry` (auth.go:114-145).  `newMatcher` stands for
`hostmatcher.NewMatcher`; `lookup` for `RegistryService.GetByDomain`;
`cacheTTL` is `m.cacheTTL` (ns).  Returns the result and the cache after
the call (the `Evict(nil)` sweep only drops expired entries and is outside
the TTL-assignment logic under verification). -/
def getRegistry (newMatcher : List String → (String → Bool)) (cacheTTL : Int)
    (cache : IMCCache String RegistryCacheEntry)
    (lookup : String → Except String Registry) (service : String) :
    Except String RegistryCacheEntry × IMCCache String RegistryCacheEntry :=
  match cache service with
  | some (item, _) => (item, cache)
  | none =>
    match lookup service with
    | .error e => (.error e, cache.set service (.error e) cacheTTL)
    | .ok registry =>
      let ttl := if registry.data.ttlSecond > 0 then registry.data.ttlSecond * second
                 else cacheTTL
      let rc : RegistryCacheEntry :=
        { registry := registry
          imagesMatcher :=
            if registry.data.enableAllowlist then some (newMatcher registry.data.allowlist)
            else none }
      (.ok rc, cache.set service (.ok rc) ttl)

/-- `userKey` (auth.go:276-280). -/
structure UserKey where
  userID : Int
  tokenUser : String
  tokenPassword : String
deriving DecidableEq

/-- `AuthManager.getToken` (auth.go:147-198).  `lookupAccount` stands for
`TokenService.GetByAccount`; `userinfo` is the optional
`(username, password)` pair. -/
def getToken (cacheTTL : Int) (cache : IMCCache UserKey ModelToken)
    (lookupAccount : UserKey → Except String ModelToken)
    (userinfo : Option (String × String)) (tIP : String)
    (registry : RegistryCacheEntry) :
    Except String ModelToken × IMCCache UserKey ModelToken :=
  match userinfo with
  | none =>
    match registry.registry.data.specialIPs tIP with
    | some tt => (.ok { userID := registry.registry.userID, data := tt }, cache)
    | none =>
      if !registry.registry.data.allowAnonymous then
        (.error "anonymous access is not allowed", cache)
      else
        (.ok { userID := registry.registry.userID,
               data := registry.registry.data.anonymous }, cache)
  | some (username, pwd) =>
    let up : UserKey :=
      { userID := registry.registry.userID, tokenUser := username, tokenPassword := pwd }
    match cache up with
    | some (item, _) => (item, cache)
    | none =>
      match lookupAccount up with
      | .error e => (.error e, cache.set up (.error e) cacheTTL)
      | .ok tok =>
        let ttl := if registry.registry.data.ttlSecond > 0 then
                     registry.registry.data.ttlSecond * second
                   else cacheTTL
        (.ok tok, cache.set up (.ok tok) ttl)

/-- Go `strings.SplitN(s, sep, 2)`. -/
def splitN2 (s : String) (sep : Char) : List String :=
  match goSplit sep s with
  | [] => []
  | x :: rest =>
    if rest.isEmpty then [x] else [x, String.intercalate (String.mk [sep]) rest]

/-- The `fmt.Errorf("invalid repository: %q, source: %q", ...)` message. -/
def invalidRepoMsg (repo source : String) : String :=
  "invalid repository: \x22" ++ repo ++ "\x22, source: \x22" ++ source ++ "\x22"

/-- `getHostAndImage` (auth.go:200-211).  `isDomainName` stands for
`format.IsDomainName` (the `format` package is not among the sources).
Note the Go control flow: when the first segment is a dotted domain name
but `allowPrefix` is false, the `else if source != ""` arm is *not*
reached and the function falls through to the error. -/
def getHostAndImage (isDomainName : String → Bool) (repo : String)
    (allowPrefix : Bool) (source : String) : Except String (String × String) :=
  let hostAndImage := splitN2 repo '/'
  if hostAndImage.length > 1 && isDomainName (hostAndImage.headD "")
      && goContains (hostAndImage.headD "") '.' then
    if allowPrefix then .ok (hostAndImage.headD "", hostAndImage.getD 1 "")
    else .error (invalidRepoMsg repo source)
  else if source != "" then .ok (source, repo)
  else .error (invalidRepoMsg repo source)

/-- Modelled from the spec: `format.IsDomainName` is not among the provided
sources; the spec's rule only requires that the first segment "is a domain
name (contains `.`)", so the model accepts any nonempty dotted segment. -/
def isDomainNameModel (s : String) : Bool :=
  s != "" && goContains s '.'

/-- The splitting rule claim C6 ascribes to the resolver, written from the
claim's words as a flat else-if chain: if the first segment is a dotted
domain name *and* `allow_prefix` is set → `(seg0, rest)`; else if
`source` is non-empty → `(source, repo)`; else the invalid-repository
error. -/
def getHostAndImageClaimC6 (isDomainName : String → Bool) (repo : String)
    (allowPrefix : Bool) (source : String) : Except String (String × String) :=
  let hostAndImage := splitN2 repo '/'
  if hostAndImage.length > 1 && isDomainName (hostAndImage.headD "")
      && goContains (hostAndImage.headD "") '.' && allowPrefix then
    .ok (hostAndImage.headD "", hostAndImage.getD 1 "")
  else if source != "" then .ok (source, repo)
  else .error (invalidRepoMsg repo source)

/-- `AuthManager.GetTokenWithUser` (auth.go:213-274): resolve the registry
and token records, assemble the effective `Attribute`, then apply the
image-split and allowlist blocking rules. -/
def GetTokenWithUser (isDomainName : String → Bool)
    (newMatcher : List String → (String → Bool)) (cacheTTL : Int)
    (regCache : IMCCache String RegistryCacheEntry)
    (tokCache : IMCCache UserKey ModelToken)
    (lookupReg : String → Except String Registry)
    (lookupAccount : UserKey → Except String ModelToken)
    (userinfo : Option (String × String)) (t : Token) :
    Except String Attribute
      × IMCCache String RegistryCacheEntry × IMCCache UserKey ModelToken :=
  match getRegistry newMatcher cacheTTL regCache lookupReg t.service with
  | (.error e, rc2) => (.error e, rc2, tokCache)
  | (.ok registry, rc2) =>
    match getToken cacheTTL tokCache lookupAccount userinfo t.ip registry with
    | (.error e, tc2) => (.error e, rc2, tc2)
    | (.ok tok, tc2) =>
      let attr : Attribute :=
        { userID := tok.userID
          tokenID := tok.tokenID
          registryID := registry.registry.registryID
          noRateLimit := tok.data.noRateLimit
          rateLimitPerSecond := tok.data.rateLimitPerSecond
          weight := tok.data.weight
          cacheFirst := tok.data.cacheFirst
          noAllowlist := tok.data.noAllowlist
          noBlock := tok.data.noBlock
          allowTagsList := tok.data.allowTagsList
          blobsAgentURL := tok.data.blobsAgentURL
          noBlobsAgent := tok.data.noBlobsAgent
          alwaysRedirect := tok.data.alwaysRedirect
          block := tok.data.block
          blockMessage := tok.data.blockMessage }
      let attr :=
        if !attr.block then
          let attr :=
            if t.image != "" then
              match getHostAndImage isDomainName t.image
                  registry.registry.data.allowPrefix registry.registry.data.source with
              | .error e => { attr with block := true, blockMessage := e }
              | .ok (host, image) => { attr with host := host, image := image }
            else attr
          if !attr.block && !attr.noAllowlist && attr.host != "" && attr.image != "" then
            match registry.imagesMatcher with
            | none => attr
            | some m =>
              if !(m (attr.host ++ "/" ++ attr.image)) then
                { attr with
                  block := true
                  blockMessage :=
                    if registry.registry.data.allowlisBlockMessage != "" then
                      registry.registry.data.allowlisBlockMessage
                    else
                      "image " ++ attr.host ++ "/" ++ attr.image ++ " on is not allowed" }
              else attr
          else attr
        else attr
      (.ok attr, rc2, tc2)

/-! ## Blob agent (src/unnamed/part_005, package agent) -/

/-- `BlobInfo` (agent): the parsed blob request. -/
structure BlobInfo where
  host : String
  image : String
  blobs : String
deriving DecidableEq, Repr

/-- The observable outcome of the origin `httpClient.Do` call in
`Agent.cacheBlob`: either the client call itself errored (the flag telling
whether the error unwraps to a `transport.Error`), or a response arrived
with a status, a `Content-Length`, and a body. -/
inductive FetchInput where
  | doErr (isTransportError : Bool)
  | resp (status contentLength : Int) (body : Bytes)
deriving DecidableEq, Repr

/-- The classification `Agent.cacheBlob` returns, mirroring its
`(size, sc, err)` results: `errDenied`/`errUnknown` carry the returned
status-code slot `sc`; `envelope` is a parsed `errcode.Errors` with the
upstream status; `download` is the success path whose continuation streams
the body into the blob cache. -/
inductive FetchOutcome (E : Type) where
  | errDenied (sc : Int)
  | errUnknown (sc : Int)
  | envelope (sc : Int) (errs : E)
  | download (contentLength : Int)
deriving DecidableEq, Repr

/-- `Agent.cacheBlob` (part_005:461-564; the classification is identical in
agent/agent.go:244-312).  `jsonValid` stands for `json.Valid` and
`unmarshalErrors` for `errcode.Errors.UnmarshalJSON` (`none` = error).  The
source's duplicated `switch` arm on 401/403 collapses to a single test. -/
def cacheBlob {E : Type} (jsonValid : Bytes → Bool)
    (unmarshalErrors : Bytes → Option E) (input : FetchInput) : FetchOutcome E :=
  match input with
  | .doErr isTransport =>
    if isTransport then .errDenied 403 else .errUnknown 0
  | .resp status contentLength body =>
    if status = 401 ∨ status = 403 then .errDenied 0
    else if status < 200 ∨ (300 ≤ status ∧ status < 400) then .errUnknown 0
    else if 400 ≤ status then
      if !jsonValid body then .errDenied 0
      else
        match unmarshalErrors body with
        | none => .errUnknown 0
        | some errs => .envelope status errs
    else .download contentLength

/-- The classification claim C4 ascribes to `Agent.cacheBlob`, written from
the claim's words: transport error → denied; 401/403 → denied; status
≥ 400 → the parsed envelope (denied on invalid JSON, unknown on a failed
`errcode.Errors` unmarshal); any other status outside 2xx and 3xx →
unknown; the remaining statuses (2xx and 3xx) are the success path on
which the body is written into the blob cache. -/
def cacheBlobClaimC4 {E : Type} (jsonValid : Bytes → Bool)
    (unmarshalErrors : Bytes → Option E) (input : FetchInput) : FetchOutcome E :=
  match input with
  | .doErr isTransport =>
    if isTransport then .errDenied 403 else .errUnknown 0
  | .resp status contentLength body =>
    if status = 401 ∨ status = 403 then .errDenied 0
    else if 400 ≤ status then
      if !jsonValid body then .errDenied 0
      else
        match unmarshalErrors body with
        | none => .errUnknown 0
        | some errs => .envelope status errs
    else if status < 200 then .errUnknown 0
    else .download contentLength

/-- What `Agent.serveCachedBlob` writes for a GET of a cached ordinary
blob: a 307 redirect to a signed URL, a streamed body, the `UNKNOWN` error
when signed-URL generation fails, or nothing when the limiter wait is
cancelled. -/
inductive BlobDelivery where
  | redirect307 (referer url : String)
  | stream
  | errUnknown
  | abandoned
deriving DecidableEq, Repr

/-- The referer string built in `serveCachedBlobRedirect` (part_005:671-674):
`fmt.Sprintf("%d-%d:%s:%s/%s", t.RegistryID, t.TokenID, r.RemoteAddr,
info.Host, info.Image)` (`info` is non-nil at every call site). -/
def blobReferer (registryID tokenID : Int) (remoteAddr host image : String) : String :=
  toString registryID ++ "-" ++ toString tokenID ++ ":" ++ remoteAddr ++ ":" ++
    host ++ "/" ++ image

/-- `Agent.serveCachedBlobRedirect` (part_005:668-688).  `redirectBlob`
stands for `cache.RedirectBlob` applied to the referer (`none` = error). -/
def serveCachedBlobRedirect (redirectBlob : String → Option String)
    (registryID tokenID : Int) (remoteAddr : String) (info : BlobInfo) : BlobDelivery :=
  let referer := blobReferer registryID tokenID remoteAddr info.host info.image
  match redirectBlob referer with
  | none => .errUnknown
  | some u => .redirect307 referer u

/-- `Agent.serveCachedBlob` (part_005:607-666) for a GET request.
`limiterAdmitsNoDelay` is `none` when `c.blobNoRedirectLimit` is nil,
otherwise `some b` with `b` the outcome of `Reserve().Delay() == 0`;
`waitOk` is whether the subsequent `Wait(ctx)` returns without error. -/
def serveCachedBlob (alwaysRedirect : Bool) (blobNoRedirectSize : Int)
    (limiterAdmitsNoDelay : Option Bool) (waitOk : Bool)
    (redirectBlob : String → Option String) (registryID tokenID : Int)
    (remoteAddr : String) (info : BlobInfo) (size : Int) : BlobDelivery :=
  if alwaysRedirect then
    serveCachedBlobRedirect redirectBlob registryID tokenID remoteAddr info
  else if blobNoRedirectSize > 0 ∧ size > blobNoRedirectSize then
    serveCachedBlobRedirect redirectBlob registryID tokenID remoteAddr info
  else
    match limiterAdmitsNoDelay with
    | some admits =>
      if !admits then
        serveCachedBlobRedirect redirectBlob registryID tokenID remoteAddr info
      else if waitOk then .stream
      else .abandoned
    | none => .stream

/-! ## Agent path parsing and routing (part_005:206-329) -/

/-- Go `strings.TrimPrefix`. -/
def trimPrefix (s pre : String) : String :=
  if goStartsWith s pre then s.drop pre.length else s

/-- `parsePath` (part_005:208-224; identical in agent/agent.go:111-127):
accept `/v2/{source}/{image...}/blobs/{sha256:...}`. -/
def parsePath (path : String) : Option (String × String × String) :=
  let p := trimPrefix path "/v2/"
  let parts := goSplit '/' p
  if parts.length < 4 then none
  else if parts.getD (parts.length - 2) "" != "blobs" then none
  else
    let source := parts.headD ""
    let image := String.intercalate "/" ((parts.drop 1).take (parts.length - 3))
    let digest := parts.getD (parts.length - 1) ""
    if !(goStartsWith digest "sha256:") then none
    else some (source, image, digest)

/-- The responses `Agent.ServeHTTP` can choose among before delegating to
`Agent.Serve`. -/
inductive AgentResponse where
  | notFound
  | unsupported
  | apiBase
  | denied (msg : String)
  | serve (info : BlobInfo) (t : Token)
deriving DecidableEq, Repr

/-- `Agent.ServeHTTP` (part_005:280-329) up to the delegation to
`Agent.Serve`.  `authResult` is `none` when no authenticator is configured
(the token is then the zero value), otherwise the outcome of
`authenticator.Authorization(r)`. -/
def agentServeHTTP (method path : String)
    (authResult : Option (Except String Token)) : AgentResponse :=
  if !(goStartsWith path "/v2/") then .notFound
  else if method != "GET" && method != "HEAD" then .unsupported
  else if path = "/v2/" then .apiBase
  else
    match parsePath path with
    | none => .notFound
    | some (source, image, digest) =>
      match (match authResult with
             | none => Except.ok ({} : Token)
             | some r => r) with
      | .error e => .denied e
      | .ok t =>
        if t.attr.block then .denied t.attr.blockMessage
        else .serve { host := source, image := image, blobs := digest } t

/-! ## Constructor options (part_005) -/

/-- The `Agent` configuration fields the options touch (pointer-valued
collaborators are tracked as presence flags). -/
structure AgentConfig where
  concurrency : Int := 10
  blobCacheDuration : Int := 3600 * second
  blobNoRedirectSize : Int := 0
  blobNoRedirectMaxSizePerSecond : Int := 0
  hasBlobNoRedirectLimit : Bool := false
  forceBlobNoRedirect : Bool := false
  bigCacheSize : Int := 0
  hasCache : Bool := false
  hasBigCache : Bool := false
  hasAuthenticator : Bool := false
  hasQueueClient : Bool := false
deriving DecidableEq, Repr

/-- The `agent.Option` constructors (part_005:71-160). -/
inductive AgentOpt where
  | withCache
  | withBigCache (size : Int)
  | withLogger
  | withAuthenticator
  | withClient
  | withForceBlobNoRedirect (b : Bool)
  | withBlobNoRedirectSize (n : Int)
  | withBlobNoRedirectMaxSizePerSecond (n : Int)
  | withBlobCacheDuration (d : Int)
  | withConcurrency (n : Int)
  | withQueueClient
deriving DecidableEq, Repr

/-- Application of one `agent.Option` (part_005:71-160): note the clamps in
`WithBlobCacheDuration` (floor 10s) and `WithConcurrency` (floor 1). -/
def AgentOpt.apply (c : AgentConfig) : AgentOpt → AgentConfig
  | .withCache => { c with hasCache := true }
  | .withBigCache size => { c with hasBigCache := true, bigCacheSize := size }
  | .withLogger => c
  | .withAuthenticator => { c with hasAuthenticator := true }
  | .withClient => c
  | .withForceBlobNoRedirect b => { c with forceBlobNoRedirect := b }
  | .withBlobNoRedirectSize n => { c with blobNoRedirectSize := n }
  | .withBlobNoRedirectMaxSizePerSecond n =>
    { c with hasBlobNoRedirectLimit := n > 0, blobNoRedirectMaxSizePerSecond := n }
  | .withBlobCacheDuration d =>
    { c with blobCacheDuration := if d < 10 * second then 10 * second else d }
  | .withConcurrency n => { c with concurrency := if n < 1 then 1 else n }
  | .withQueueClient => { c with hasQueueClient := true }

/-- `NewAgent` (part_005:162-204): defaults, then the options in order. -/
def newAgent (opts : List AgentOpt) : AgentConfig :=
  opts.foldl AgentOpt.apply {}

/-- The `Gateway` configuration fields its options touch (part_005 gateway,
lines 1110-1249). -/
structure GatewayConfig where
  concurrency : Int := 10
  manifestCacheDuration : Int := 60 * second
  disableTagsList : Bool := false
  defaultRegistry : String := ""
  hasClient : Bool := false
  hasAuthenticator : Bool := false
  hasCache : Bool := false
  hasQueueClient : Bool := false
  hasAgent : Bool := false
deriving DecidableEq, Repr

/-- The `gateway.Option` constructors (part_005:1136-1214). -/
inductive GatewayOpt where
  | withClient
  | withManifestCacheDuration (d : Int)
  | withDisableTagsList (b : Bool)
  | withLogger
  | withPathInfoModifyFunc
  | withAuthenticator
  | withCache
  | withDefaultRegistry (s : String)
  | withOverrideDefaultRegistry
  | withConcurrency (n : Int)
  | withQueueClient
  | withAgent
deriving DecidableEq, Repr

/-- Application of one `gateway.Option` (part_005:1136-1214): note the
clamps in `WithManifestCacheDuration` (floor 10s) and `WithConcurrency`
(floor 1). -/
def GatewayOpt.apply (c : GatewayConfig) : GatewayOpt → GatewayConfig
  | .withClient => { c with hasClient := true }
  | .withManifestCacheDuration d =>
    { c with manifestCacheDuration := if d < 10 * second then 10 * second else d }
  | .withDisableTagsList b => { c with disableTagsList := b }
  | .withLogger => c
  | .withPathInfoModifyFunc => c
  | .withAuthenticator => { c with hasAuthenticator := true }
  | .withCache => { c with hasCache := true }
  | .withDefaultRegistry s => { c with defaultRegistry := s }
  | .withOverrideDefaultRegistry => c
  | .withConcurrency n => { c with concurrency := if n < 1 then 1 else n }
  | .withQueueClient => { c with hasQueueClient := true }
  | .withAgent => { c with hasAgent := true }

/-- `NewGateway` (part_005:1216-1249): defaults, then the options in order. -/
def newGateway (opts : List GatewayOpt) : GatewayConfig :=
  opts.foldl GatewayOpt.apply {}

/-! ## Token codec (pkg/token/encoding.go)

The payload of `Encode` is `json.Marshal(t)`; the model renders it as a
JSON value tree (`Json`), identifying the byte serialization with the
value it denotes (a canonical JSON printer is injective).  The field tags
and their `omitempty` options are carried over exactly; Go never omits a
struct-typed field (`expires_at`, `attribute`) even under `omitempty`. -/

/-- A JSON value, as far as the token payload needs. -/
inductive Json where
  | str (s : String)
  | num (n : Int)
  | bool (b : Bool)
  | obj (fields : List (String × Json))

/-- `omitempty` for a string field. -/
def omitStr (s : String) : Option Json :=
  if s = "" then none else some (.str s)

/-- `omitempty` for an `int`/`int64` field. -/
def omitNum (n : Int) : Option Json :=
  if n = 0 then none else some (.num n)

/-- `omitempty` for a `uint64` field. -/
def omitNat (n : Nat) : Option Json :=
  if n = 0 then none else some (.num (n : Int))

/-- `omitempty` for a `bool` field. -/
def omitBool (b : Bool) : Option Json :=
  if b then some (.bool b) else none

/-- Drop the omitted fields of a marshalling plan. -/
def renderFields (l : List (String × Option Json)) : List (String × Json) :=
  l.filterMap (fun p => p.2.map (fun v => (p.1, v)))

/-- The `json.Marshal` plan for `token.Attribute`, tag for tag. -/
def attrFields (a : Attribute) : List (String × Option Json) :=
  [("user_id", omitNum a.userID),
   ("registry_id", omitNum a.registryID),
   ("token_id", omitNum a.tokenID),
   ("no_rate_limit", omitBool a.noRateLimit),
   ("rate_limit_per_second", omitNat a.rateLimitPerSecond),
   ("no_allowlist", omitBool a.noAllowlist),
   ("no_block", omitBool a.noBlock),
   ("allow_tags_list", omitBool a.allowTagsList),
   ("cache_first", omitBool a.cacheFirst),
   ("weight", omitNum a.weight),
   ("host", omitStr a.host),
   ("image", omitStr a.image),
   ("no_blobs_agent", omitBool a.noBlobsAgent),
   ("blobs_url", omitStr a.blobsAgentURL),
   ("always_redirect", omitBool a.alwaysRedirect),
   ("block", omitBool a.block),
   ("block_message", omitStr a.blockMessage)]

/-- `json.Marshal` of `token.Attribute`. -/
def marshalAttribute (a : Attribute) : Json :=
  .obj (renderFields (attrFields a))

/-- The `json.Marshal` plan for `token.Token`: `expires_at` (a struct,
never omitted), the five string claims, and the embedded `Attribute` under
its `attribute` tag (a struct, never omitted). -/
def tokenFields (t : Token) : List (String × Option Json) :=
  [("expires_at", some (.num t.expiresAt)),
   ("scope", omitStr t.scope),
   ("service", omitStr t.service),
   ("account", omitStr t.account),
   ("ip", omitStr t.ip),
   ("image", omitStr t.image),
   ("attribute", some (marshalAttribute t.attr))]

/-- `json.Marshal` of `token.Token`. -/
def marshalToken (t : Token) : Json :=
  .obj (renderFields (tokenFields t))

/-- Field lookup in a JSON object, as `json.Unmarshal` resolves keys. -/
def jget (fs : List (String × Json)) (k : String) : Option Json :=
  (fs.find? (fun p => p.1 == k)).map (fun p => p.2)

/-- Decode a string field; a missing field keeps the zero value. -/
def decStr (v : Option Json) : String :=
  match v with
  | some (.str s) => s
  | _ => ""

/-- Decode an integer field; a missing field keeps the zero value. -/
def decInt (v : Option Json) : Int :=
  match v with
  | some (.num n) => n
  | _ => 0

/-- Decode a `uint64` field; a missing field keeps the zero value. -/
def decNat (v : Option Json) : Nat :=
  match v with
  | some (.num n) => n.toNat
  | _ => 0

/-- Decode a boolean field; a missing field keeps the zero value. -/
def decBool (v : Option Json) : Bool :=
  match v with
  | some (.bool b) => b
  | _ => false

/-- `json.Unmarshal` into `token.Attribute`: absent keys leave the zero
value (a non-object leaves the whole struct at its zero value). -/
def unmarshalAttribute (j : Json) : Attribute :=
  match j with
  | .obj fs =>
    { userID := decInt (jget fs "user_id")
      registryID := decInt (jget fs "registry_id")
      tokenID := decInt (jget fs "token_id")
      noRateLimit := decBool (jget fs "no_rate_limit")
      rateLimitPerSecond := decNat (jget fs "rate_limit_per_second")
      noAllowlist := decBool (jget fs "no_allowlist")
      noBlock := decBool (jget fs "no_block")
      allowTagsList := decBool (jget fs "allow_tags_list")
      cacheFirst := decBool (jget fs "cache_first")
      weight := decInt (jget fs "weight")
      host := decStr (jget fs "host")
      image := decStr (jget fs "image")
      noBlobsAgent := decBool (jget fs "no_blobs_agent")
      blobsAgentURL := decStr (jget fs "blobs_url")
      alwaysRedirect := decBool (jget fs "always_redirect")
      block := decBool (jget fs "block")
      blockMessage := decStr (jget fs "block_message") }
  | _ => {}

/-- `json.Unmarshal` into `token.Token`. -/
def unmarshalToken (j : Json) : Except String Token :=
  match j with
  | .obj fs =>
    .ok { expiresAt := decInt (jget fs "expires_at")
          scope := decStr (jget fs "scope")
          service := decStr (jget fs "service")
          account := decStr (jget fs "account")
          ip := decStr (jget fs "ip")
          image := decStr (jget fs "image")
          attr := unmarshalAttribute ((jget fs "attribute").getD (.obj [])) }
  | _ => .error "json: cannot unmarshal into Token"

/-- `Encoder.Encode` (encoding.go:67-74): marshal, then sign.  `sign`
stands for `signing.Signer.Sign`; the wire type `α` is abstract. -/
def Encode {α : Type} (sign : Json → α) (t : Token) : α :=
  sign (marshalToken t)

/-- `Decoder.Decode` (encoding.go:76-88): verify, then unmarshal. -/
def Decode {α : Type} (verify : α → Except String Json) (code : α) :
    Except String Token :=
  match verify code with
  | .error e => .error e
  | .ok data => unmarshalToken data

/-! ## Theorems -/

/-! ### C10: constructor clamps -/

lemma agentOpt_apply_clamps (c : AgentConfig) (o : AgentOpt)
    (h1 : 10 * second ≤ c.blobCacheDuration) (h2 : 1 ≤ c.concurrency) :
    10 * second ≤ (AgentOpt.apply c o).blobCacheDuration ∧
      1 ≤ (AgentOpt.apply c o).concurrency := by
  cases o <;> simp only [AgentOpt.apply] <;>
    exact ⟨by first | assumption | (split <;> omega),
           by first | assumption | (split <;> omega)⟩

lemma agent_foldl_clamps (opts : List AgentOpt) (c : AgentConfig)
    (h1 : 10 * second ≤ c.blobCacheDuration) (h2 : 1 ≤ c.concurrency) :
    10 * second ≤ (opts.foldl AgentOpt.apply c).blobCacheDuration ∧
      1 ≤ (opts.foldl AgentOpt.apply c).concurrency := by
  induction opts generalizing c with
  | nil => exact ⟨h1, h2⟩
  | cons o rest ih =>
    obtain ⟨g1, g2⟩ := agentOpt_apply_clamps c o h1 h2
    exact ih _ g1 g2

lemma gatewayOpt_apply_clamps (c : GatewayConfig) (o : GatewayOpt)
    (h : 10 * second ≤ c.manifestCacheDuration) :
    10 * second ≤ (GatewayOpt.apply c o).manifestCacheDuration := by
  cases o <;> simp only [GatewayOpt.apply] <;>
    first
      | exact h
      | (split <;> omega)

lemma gateway_foldl_clamps (opts : List GatewayOpt) (c : GatewayConfig)
    (h : 10 * second ≤ c.manifestCacheDuration) :
    10 * second ≤ (opts.foldl GatewayOpt.apply c).manifestCacheDuration := by
  induction opts generalizing c with
  | nil => exact h
  | cons o rest ih => exact ih _ (gatewayOpt_apply_clamps c o h)

/-- C10: whatever options are passed, the constructed agent's blob-cache
duration is at least 10 seconds and its admission concurrency at least 1,
and the constructed gateway's manifest-cache duration is at least 10
seconds: the defaults already satisfy the bounds and every option either
preserves the fields or clamps its argument. -/
theorem constructor_options_clamp (aopts : List AgentOpt) (gopts : List GatewayOpt) :
    10 * second ≤ (newAgent aopts).blobCacheDuration ∧
      1 ≤ (newAgent aopts).concurrency ∧
      10 * second ≤ (newGateway gopts).manifestCacheDuration := by
  have ha := agent_foldl_clamps aopts {} (by norm_num [second]) (by norm_num)
  have hg := gateway_foldl_clamps gopts {} (by norm_num [second])
  exact ⟨ha.1, ha.2, hg⟩

/-! ### C8: token round trip -/

lemma jget_renderFields_nil (k : String) : jget (renderFields []) k = none := rfl

lemma jget_renderFields_cons (k k1 : String) (v : Option Json)
    (rest : List (String × Option Json)) :
    jget (renderFields ((k1, v) :: rest)) k =
      if k1 = k then v.orElse (fun _ => jget (renderFields rest) k)
      else jget (renderFields rest) k := by
  cases v with
  | none =>
    by_cases h : k1 = k <;> simp [renderFields, List.filterMap_cons, h]
  | some x =>
    by_cases h : k1 = k
    · simp [renderFields, jget, List.find?_cons, h]
    · simp [renderFields, jget, List.find?_cons, h]

lemma decStr_omitStr (s : String) : decStr (omitStr s) = s := by
  by_cases h : s = "" <;> simp [omitStr, decStr, h]

lemma decInt_omitNum (n : Int) : decInt (omitNum n) = n := by
  by_cases h : n = 0 <;> simp [omitNum, decInt, h]

lemma decNat_omitNat (n : Nat) : decNat (omitNat n) = n := by
  by_cases h : n = 0 <;> simp [omitNat, decNat, h]

lemma decBool_omitBool (b : Bool) : decBool (omitBool b) = b := by
  cases b <;> simp [omitBool, decBool]

lemma orElse_none_right {α : Type} (o : Option α) :
    (o.orElse fun _ => none) = o := by
  cases o <;> rfl

lemma unmarshalAttribute_marshalAttribute (a : Attribute) :
    unmarshalAttribute (marshalAttribute a) = a := by
  obtain ⟨u, r, tk, nrl, rls, nal, nb, atl, cf, w, h, i, nba, bu, ar, b, bm⟩ := a
  simp only [marshalAttribute, attrFields, unmarshalAttribute,
    jget_renderFields_cons, jget_renderFields_nil, orElse_none_right]
  simp [decStr_omitStr, decInt_omitNum, decNat_omitNat, decBool_omitBool]

lemma unmarshalToken_marshalToken (t : Token) :
    unmarshalToken (marshalToken t) = .ok t := by
  obtain ⟨e, sc, sv, ac, ip, im, a⟩ := t
  simp only [marshalToken, tokenFields, unmarshalToken,
    jget_renderFields_cons, jget_renderFields_nil, orElse_none_right]
  simp [decStr_omitStr, decInt_omitNum, decInt, unmarshalAttribute_marshalAttribute]

/-- C8: with a signing primitive satisfying `Verify (Sign b) = b`,
`Decode (Encode t)` succeeds and returns `t` for every token, and whenever
the verifier rejects an encoded string, `Decode` returns an error rather
than a token. -/
theorem token_encode_decode_roundtrip {α : Type} (sign : Json → α)
    (verify : α → Except String Json) (hver : ∀ j, verify (sign j) = .ok j) :
    (∀ t : Token, Decode verify (Encode sign t) = .ok t) ∧
      (∀ code e, verify code = .error e → Decode verify code = .error e) := by
  constructor
  · intro t
    simp [Decode, Encode, hver, unmarshalToken_marshalToken]
  · intro code e h
    simp [Decode, h]

/-- Witness for C8 at the identity signer and a concrete token. -/
theorem token_encode_decode_roundtrip_witness :
    Decode (fun j => Except.ok j) (Encode (fun j => j)
        ({ scope := "pull", service := "registry.example", ip := "1.2.3.4",
           attr := { userID := 7, block := true, blockMessage := "m" } } : Token)) =
      .ok { scope := "pull", service := "registry.example", ip := "1.2.3.4",
            attr := { userID := 7, block := true, blockMessage := "m" } } :=
  (token_encode_decode_roundtrip (fun j => j) (fun j => Except.ok j)
    (fun _ => rfl)).1 _

/-! ### C4: blob origin fetch classification -/

/-- Counterexample to C4 as stated: the claim counts 3xx among the
"remaining (success) statuses" on which the body is written into the blob
cache, but on an upstream 301 `Agent.cacheBlob` returns `UNKNOWN` and never
reaches the cache write. -/
theorem cacheBlob_3xx_counterexample :
    cacheBlob (fun _ => true) (fun _ : Bytes => (none : Option Unit))
        (.resp 301 5 "") = .errUnknown 0 ∧
      cacheBlobClaimC4 (fun _ => true) (fun _ : Bytes => (none : Option Unit))
          (.resp 301 5 "") = .download 5 ∧
      (FetchOutcome.errUnknown 0 : FetchOutcome Unit) ≠ .download 5 := by
  refine ⟨?_, ?_, by decide⟩ <;> norm_num [cacheBlob, cacheBlobClaimC4]

/-- C4 (amended: a 3xx upstream status also yields `UNKNOWN`, and the body
is written into the blob cache exactly on a 2xx status): the agent's
classification of a blob origin fetch — a `transport.Error` yields DENIED
(with status-code slot 403); upstream 401/403 yields DENIED; a status ≥ 400
with a valid `errcode.Errors` JSON envelope yields that envelope with the
upstream status (invalid JSON yields DENIED, a JSON body failing the
`errcode.Errors` unmarshal yields UNKNOWN); any status below 200 or in
300-399 yields UNKNOWN; and the download path that writes the body into
the blob cache is taken exactly for 2xx statuses. -/
theorem cacheBlob_classification {E : Type} (jv : Bytes → Bool)
    (um : Bytes → Option E) :
    (cacheBlob jv um (.doErr true) = .errDenied 403) ∧
    (cacheBlob jv um (.doErr false) = .errUnknown 0) ∧
    (∀ s cl b, s = 401 ∨ s = 403 → cacheBlob jv um (.resp s cl b) = .errDenied 0) ∧
    (∀ s cl b, 400 ≤ s → ¬(s = 401 ∨ s = 403) →
      cacheBlob jv um (.resp s cl b) =
        (if jv b then
           (match um b with
            | none => .errUnknown 0
            | some errs => .envelope s errs)
         else .errDenied 0)) ∧
    (∀ s cl b, (s < 200 ∨ (300 ≤ s ∧ s < 400)) → ¬(s = 401 ∨ s = 403) →
      cacheBlob jv um (.resp s cl b) = .errUnknown 0) ∧
    (∀ s cl b, (∃ n, cacheBlob jv um (.resp s cl b) = .download n) ↔
      (200 ≤ s ∧ s < 300)) := by
  refine ⟨rfl, rfl, ?_, ?_, ?_, ?_⟩
  · intro s cl b h
    simp [cacheBlob, h]
  · intro s cl b h400 hne
    have h1 : ¬(s < 200 ∨ (300 ≤ s ∧ s < 400)) := by omega
    simp only [cacheBlob, if_neg hne, if_neg h1, if_pos h400]
    by_cases hb : jv b <;> simp [hb]
  · intro s cl b hr hne
    simp [cacheBlob, hne, hr]
  · intro s cl b
    constructor
    · rintro ⟨n, hn⟩
      by_contra hs
      simp only [cacheBlob] at hn
      by_cases h1 : s = 401 ∨ s = 403
      · simp [h1] at hn
      · by_cases h2 : s < 200 ∨ (300 ≤ s ∧ s < 400)
        · simp [h1, h2] at hn
        · have h3 : 400 ≤ s := by omega
          simp only [if_neg h1, if_neg h2, if_pos h3] at hn
          by_cases hb : jv b
          · simp only [hb, Bool.not_true] at hn
            cases hum : um b <;> simp [hum] at hn
          · simp [hb] at hn
    · intro hs
      have h1 : ¬(s = 401 ∨ s = 403) := by omega
      have h2 : ¬(s < 200 ∨ (300 ≤ s ∧ s < 400)) := by omega
      have h3 : ¬(400 ≤ s) := by omega
      exact ⟨cl, by simp [cacheBlob, h1, h2, h3]⟩

/-- Witness for C4's conditional clauses at concrete statuses 401, 404 and
150, and the download criterion at 200. -/
theorem cacheBlob_classification_witness :
    cacheBlob (fun _ => true) (fun _ : Bytes => (some () : Option Unit))
        (.resp 401 0 "") = .errDenied 0 ∧
      cacheBlob (fun _ => true) (fun _ : Bytes => (some () : Option Unit))
          (.resp 404 0 "{}") = .envelope 404 () ∧
      cacheBlob (fun _ => true) (fun _ : Bytes => (some () : Option Unit))
          (.resp 150 0 "") = .errUnknown 0 ∧
      (∃ n, cacheBlob (fun _ => true) (fun _ : Bytes => (some () : Option Unit))
          (.resp 200 9 "") = FetchOutcome.download n) := by
  have h := cacheBlob_classification (fun _ => true)
    (fun _ : Bytes => (some () : Option Unit))
  refine ⟨h.2.2.1 401 0 "" (by norm_num), ?_, ?_, ?_⟩
  · have := h.2.2.2.1 404 0 "{}" (by norm_num) (by norm_num)
    simpa using this
  · exact h.2.2.2.2.1 150 0 "" (by norm_num) (by norm_num)
  · exact (h.2.2.2.2.2 200 9 "").mpr (by norm_num)

/-! ### C5: cached-blob delivery, redirect versus stream -/

/-- C5: delivering an already-cached ordinary blob on GET redirects (307,
signed URL) exactly when the token asks to always redirect, or the
configured no-redirect size is positive and the blob exceeds it, or the
global no-redirect limiter cannot admit the request without delay; in every
other case the body is streamed from the cache; and every issued redirect
carries the referer `"{registry_id}-{token_id}:{remote_addr}:{host}/{image}"`.
Stated under the assumptions that signed-URL generation succeeds and the
limiter wait is not cancelled. -/
theorem serveCachedBlob_redirect_iff (alwaysRedirect : Bool)
    (blobNoRedirectSize : Int) (limiter : Option Bool)
    (redirectBlob : String → Option String) (registryID tokenID : Int)
    (remoteAddr : String) (info : BlobInfo) (size : Int)
    (hred : ∀ ref, (redirectBlob ref).isSome) :
    ((alwaysRedirect = true ∨ (blobNoRedirectSize > 0 ∧ size > blobNoRedirectSize) ∨
        limiter = some false) →
      ∃ u, serveCachedBlob alwaysRedirect blobNoRedirectSize limiter true
          redirectBlob registryID tokenID remoteAddr info size =
        .redirect307 (blobReferer registryID tokenID remoteAddr info.host info.image) u) ∧
    (¬(alwaysRedirect = true ∨ (blobNoRedirectSize > 0 ∧ size > blobNoRedirectSize) ∨
        limiter = some false) →
      serveCachedBlob alwaysRedirect blobNoRedirectSize limiter true
          redirectBlob registryID tokenID remoteAddr info size = .stream) ∧
    (∀ ref u, serveCachedBlob alwaysRedirect blobNoRedirectSize limiter true
          redirectBlob registryID tokenID remoteAddr info size = .redirect307 ref u →
      ref = blobReferer registryID tokenID remoteAddr info.host info.image) := by
  obtain ⟨u0, hu0⟩ := Option.isSome_iff_exists.mp
    (hred (blobReferer registryID tokenID remoteAddr info.host info.image))
  have hredir : serveCachedBlobRedirect redirectBlob registryID tokenID remoteAddr info =
      .redirect307 (blobReferer registryID tokenID remoteAddr info.host info.image) u0 := by
    simp [serveCachedBlobRedirect, hu0]
  refine ⟨?_, ?_, ?_⟩
  · intro h
    refine ⟨u0, ?_⟩
    simp only [serveCachedBlob]
    rcases h with h | h | h
    · simp [h, hredir]
    · by_cases hA : alwaysRedirect = true
      · simp [hA, hredir]
      · rw [if_neg hA, if_pos h]
        exact hredir
    · subst h
      by_cases hA : alwaysRedirect = true
      · simp [hA, hredir]
      · rw [if_neg hA]
        by_cases hS : blobNoRedirectSize > 0 ∧ size > blobNoRedirectSize
        · rw [if_pos hS]
          exact hredir
        · rw [if_neg hS]
          simpa using hredir
  · intro h
    push_neg at h
    obtain ⟨h1, h2, h3⟩ := h
    simp only [serveCachedBlob]
    rw [if_neg (by simp [h1]), if_neg (by intro hc; exact absurd hc.2 (by omega))]
    cases hl : limiter with
    | none => rfl
    | some admits =>
      cases admits with
      | false => exact absurd hl h3
      | true => rfl
  · intro ref u hserve
    simp only [serveCachedBlob] at hserve
    have hform : serveCachedBlobRedirect redirectBlob registryID tokenID remoteAddr
        info = .redirect307 ref u → ref =
          blobReferer registryID tokenID remoteAddr info.host info.image := by
      intro hx
      rw [hredir] at hx
      cases hx
      rfl
    by_cases hA : alwaysRedirect = true
    · rw [if_pos hA] at hserve
      exact hform hserve
    · rw [if_neg hA] at hserve
      by_cases hS : blobNoRedirectSize > 0 ∧ size > blobNoRedirectSize
      · rw [if_pos hS] at hserve
        exact hform hserve
      · rw [if_neg hS] at hserve
        cases hl : limiter with
        | none => rw [hl] at hserve; cases hserve
        | some admits =>
          rw [hl] at hserve
          cases admits with
          | false => exact hform (by simpa using hserve)
          | true => simp at hserve

/-- Witness for C5 at concrete inputs (size over the threshold forces a
redirect; the same configuration at a small size streams). -/
theorem serveCachedBlob_redirect_iff_witness :
    (∃ u, serveCachedBlob false 10 (some true) true (fun r => some ("https://s/" ++ r))
        3 4 "9.9.9.9:1" { host := "h.io", image := "a/b", blobs := "sha256:x" } 11 =
      .redirect307 (blobReferer 3 4 "9.9.9.9:1" "h.io" "a/b") u) ∧
    serveCachedBlob false 10 (some true) true (fun r => some ("https://s/" ++ r))
        3 4 "9.9.9.9:1" { host := "h.io", image := "a/b", blobs := "sha256:x" } 5 =
      .stream := by
  constructor
  · exact (serveCachedBlob_redirect_iff false 10 (some true)
      (fun r => some ("https://s/" ++ r)) 3 4 "9.9.9.9:1"
      { host := "h.io", image := "a/b", blobs := "sha256:x" } 11
      (fun _ => rfl)).1 (by norm_num)
  · exact (serveCachedBlob_redirect_iff false 10 (some true)
      (fun r => some ("https://s/" ++ r)) 3 4 "9.9.9.9:1"
      { host := "h.io", image := "a/b", blobs := "sha256:x" } 5
      (fun _ => rfl)).2.1 (by simp)

/-! ### C6: host/image splitting and blocking -/

/-- Counterexample to C6 as stated: for `docker.io/foo` with
`allow_prefix = false` and `source = "example.com"`, the claim's flat
else-if chain falls through to `(source, repo)`, but in the Go control flow
the `else if source != ""` arm belongs to the outer `if`, so the dotted
first segment with `allow_prefix` unset reaches the invalid-repository
error even though `source` is set. -/
theorem getHostAndImage_counterexample :
    getHostAndImage isDomainNameModel "docker.io/foo" false "example.com" =
        .error (invalidRepoMsg "docker.io/foo" "example.com") ∧
      getHostAndImageClaimC6 isDomainNameModel "docker.io/foo" false "example.com" =
        .ok ("example.com", "docker.io/foo") ∧
      (Except.error (invalidRepoMsg "docker.io/foo" "example.com") :
          Except String (String × String)) ≠ .ok ("example.com", "docker.io/foo") := by
  exact ⟨rfl, rfl, fun h => Except.noConfusion h⟩

/-- C6 (amended: when the first segment is a dotted domain name and
`allow_prefix` is not set, the split is blocked with the invalid-repository
message even if `source` is non-empty): the resolver's split of
`token.image` into `(host, image)` — dotted first segment with
`allow_prefix` → `(seg0, rest)`; dotted first segment without
`allow_prefix` → blocked; otherwise `(source, repo)` when `source` is
non-empty, blocked when it is empty; and `GetTokenWithUser` turns exactly
the error outcomes into `Block`/`BlockMessage` on the effective attributes
(stated with the allowlist disabled, so no later blocking applies). -/
theorem getHostAndImage_block_cases (isDom : String → Bool) (repo : String)
    (ap : Bool) (src : String) :
    (((splitN2 repo '/').length > 1 ∧ isDom ((splitN2 repo '/').headD "") = true ∧
        (goContains ((splitN2 repo '/').headD "") '.') = true) →
      (ap = true →
        getHostAndImage isDom repo ap src =
          .ok ((splitN2 repo '/').headD "", (splitN2 repo '/').getD 1 "")) ∧
      (ap = false →
        getHostAndImage isDom repo ap src = .error (invalidRepoMsg repo src))) ∧
    (¬((splitN2 repo '/').length > 1 ∧ isDom ((splitN2 repo '/').headD "") = true ∧
        (goContains ((splitN2 repo '/').headD "") '.') = true) →
      (src ≠ "" → getHostAndImage isDom repo ap src = .ok (src, repo)) ∧
      (src = "" → getHostAndImage isDom repo ap src = .error (invalidRepoMsg repo src))) ∧
    (∀ (newMatcher : List String → (String → Bool)) (cacheTTL : Int)
        (lookupReg : String → Except String Registry)
        (lookupAccount : UserKey → Except String ModelToken)
        (t : Token) (reg : Registry) (tok : ModelToken),
      lookupReg t.service = .ok reg →
      reg.data.enableAllowlist = false →
      reg.data.allowPrefix = ap →
      reg.data.source = src →
      (∀ k, lookupAccount k = .ok tok) →
      tok.data.block = false →
      t.image = repo →
      repo ≠ "" →
      (∀ e, getHostAndImage isDom repo ap src = .error e →
        ∃ a : Attribute, (GetTokenWithUser isDom newMatcher cacheTTL IMCCache.empty
            IMCCache.empty lookupReg lookupAccount (some ("u", "p")) t).1 = .ok a ∧
          a.block = true ∧ a.blockMessage = e) ∧
      (∀ h i, getHostAndImage isDom repo ap src = .ok (h, i) →
        ∃ a : Attribute, (GetTokenWithUser isDom newMatcher cacheTTL IMCCache.empty
            IMCCache.empty lookupReg lookupAccount (some ("u", "p")) t).1 = .ok a ∧
          a.block = false ∧ a.host = h ∧ a.image = i)) := by
  refine ⟨?_, ?_, ?_⟩
  · rintro ⟨h1, h2, h3⟩
    have hc : (decide ((splitN2 repo '/').length > 1) && isDom ((splitN2 repo '/').headD "")
        && goContains ((splitN2 repo '/').headD "") '.') = true := by
      rw [h2, h3]
      simp [h1]
    constructor
    · intro hap
      subst hap
      simp only [getHostAndImage, hc, eq_self_iff_true, if_true]
    · intro hap
      subst hap
      simp only [getHostAndImage, hc, eq_self_iff_true, if_true,
        Bool.false_eq_true, if_false]
  · intro h
    have hc : (decide ((splitN2 repo '/').length > 1) && isDom ((splitN2 repo '/').headD "")
        && goContains ((splitN2 repo '/').headD "") '.') = false := by
      rcases Bool.eq_false_or_eq_true (isDom ((splitN2 repo '/').headD "")) with h2 | h2 <;>
        rcases Bool.eq_false_or_eq_true (goContains ((splitN2 repo '/').headD "") '.') with
          h3 | h3 <;>
        by_cases h1 : (splitN2 repo '/').length > 1 <;>
        simp_all
    constructor
    · intro hs
      simp only [getHostAndImage, hc, Bool.false_eq_true, if_false]
      simp [hs]
    · intro hs
      subst hs
      simp only [getHostAndImage, hc, Bool.false_eq_true, if_false]
      simp
  · intro newMatcher cacheTTL lookupReg lookupAccount t reg tok hreg hal hap hsrc hacct
      hblock himg hne
    have hmain : ∀ (r : Except String Attribute), (GetTokenWithUser isDom newMatcher
        cacheTTL IMCCache.empty IMCCache.empty lookupReg lookupAccount
        (some ("u", "p")) t).1 = r →
        r = .ok (let base : Attribute :=
          { userID := tok.userID
            tokenID := tok.tokenID
            registryID := reg.registryID
            noRateLimit := tok.data.noRateLimit
            rateLimitPerSecond := tok.data.rateLimitPerSecond
            weight := tok.data.weight
            cacheFirst := tok.data.cacheFirst
            noAllowlist := tok.data.noAllowlist
            noBlock := tok.data.noBlock
            allowTagsList := tok.data.allowTagsList
            blobsAgentURL := tok.data.blobsAgentURL
            noBlobsAgent := tok.data.noBlobsAgent
            alwaysRedirect := tok.data.alwaysRedirect
            block := tok.data.block
            blockMessage := tok.data.blockMessage }
          match getHostAndImage isDom repo ap src with
          | .error e => { base with block := true, blockMessage := e }
          | .ok (h, i) => { base with host := h, image := i }) := by
      intro r hr
      subst hr
      simp only [GetTokenWithUser, getRegistry, getToken, IMCCache.empty, hreg, hacct,
        hblock, himg]
      have hiff : t.image != "" := by
        rw [himg]
        simpa using hne
      simp only [himg, hiff, hal, hap, hsrc, hblock]
      cases hg : getHostAndImage isDom repo ap src with
      | error e => simp [hg, hblock, hne]
      | ok p =>
        obtain ⟨h, i⟩ := p
        simp [hg, hblock, hne]
    constructor
    · intro e hg
      refine ⟨_, hmain _ rfl, ?_, ?_⟩ <;> simp [hg]
    · intro h i hg
      refine ⟨_, hmain _ rfl, ?_, ?_, ?_⟩ <;> simp [hg, hblock]

/-- Witness for C6's amended theorem at concrete inputs: with a dotted
prefix and `allow_prefix` set the split succeeds; without `allow_prefix`
it is rejected and `GetTokenWithUser` blocks with that message. -/
theorem getHostAndImage_block_cases_witness :
    getHostAndImage isDomainNameModel "docker.io/library/busybox" true "" =
        .ok ("docker.io", "library/busybox") ∧
      getHostAndImage isDomainNameModel "busybox" false "docker.io" =
        .ok ("docker.io", "busybox") ∧
      (∃ a : Attribute, (GetTokenWithUser isDomainNameModel (fun _ _ => true) (10 * second)
          IMCCache.empty IMCCache.empty
          (fun _ => .ok { registryID := 1, userID := 2,
                          data := { allowPrefix := false, source := "example.com" } })
          (fun _ => .ok { userID := 2, tokenID := 3 })
          (some ("u", "p")) { service := "svc", image := "docker.io/foo" }).1 = .ok a ∧
        a.block = true ∧
        a.blockMessage = invalidRepoMsg "docker.io/foo" "example.com") := by
  refine ⟨?_, ?_, ?_⟩
  · exact ((getHostAndImage_block_cases isDomainNameModel "docker.io/library/busybox"
      true "").1 (by refine ⟨?_, ?_, ?_⟩ <;> decide)).1 rfl
  · exact ((getHostAndImage_block_cases isDomainNameModel "busybox"
      false "docker.io").2.1 (by intro h; exact absurd h.2.2 (by decide))).1 (by decide)
  · exact ((getHostAndImage_block_cases isDomainNameModel "docker.io/foo"
      false "example.com").2.2 (fun _ _ => true) (10 * second)
      (fun _ => .ok { registryID := 1, userID := 2,
                      data := { allowPrefix := false, source := "example.com" } })
      (fun _ => .ok { userID := 2, tokenID := 3 })
      { service := "svc", image := "docker.io/foo" }
      { registryID := 1, userID := 2,
        data := { allowPrefix := false, source := "example.com" } }
      { userID := 2, tokenID := 3 }
      rfl rfl rfl rfl (fun _ => rfl) rfl rfl (by decide)).1
      (invalidRepoMsg "docker.io/foo" "example.com")
      (getHostAndImage_counterexample.1)

/-! ### C2: policy cache TTLs -/

/-- Counterexample to C2 as stated: with the default TTL of 10 s and a
registry record carrying `ttl_seconds = 3600`, the resolver caches the
success for 3600 s, not `min(10 s, 3600 s)`: the code overrides the
default with `ttl_seconds` whenever it is positive instead of taking the
minimum. -/
theorem getRegistry_ttl_counterexample :
    (((getRegistry (fun _ _ => false) (10 * second) IMCCache.empty
        (fun _ => .ok { registryID := 1, userID := 2, data := { ttlSecond := 3600 } })
        "svc").2 "svc").map (fun p => p.2)) = some (3600 * second) ∧
      min (10 * second) (3600 * second) ≠ 3600 * second := by
  exact ⟨rfl, by decide⟩

/-- C2 (amended: a successful `Registry` record is cached with TTL
`registry.ttl_seconds` (as seconds) when that is positive, and
`default_ttl` otherwise — the code does not take the minimum; a lookup
error is cached for `default_ttl`; the `TokenRecord` cache follows the
same rule; hence every inserted TTL is either `default_ttl` or
`registry.ttl_seconds` seconds, and never exceeds the larger of the two). -/
theorem policy_cache_ttl (newMatcher : List String → (String → Bool))
    (cacheTTL : Int) (regCache : IMCCache String RegistryCacheEntry)
    (tokCache : IMCCache UserKey ModelToken)
    (lookup : String → Except String Registry)
    (lookupAccount : UserKey → Except String ModelToken)
    (service ip username pwd : String) (rc : RegistryCacheEntry) :
    (∀ e, regCache service = none → lookup service = .error e →
      (getRegistry newMatcher cacheTTL regCache lookup service).2 service =
        some (.error e, cacheTTL)) ∧
    (∀ reg, regCache service = none → lookup service = .ok reg →
      ∃ entry : RegistryCacheEntry,
        (getRegistry newMatcher cacheTTL regCache lookup service).2 service =
          some (.ok entry,
            if reg.data.ttlSecond > 0 then reg.data.ttlSecond * second else cacheTTL) ∧
        entry.registry = reg) ∧
    (∀ e, tokCache (⟨rc.registry.userID, username, pwd⟩ : UserKey) = none →
      lookupAccount (⟨rc.registry.userID, username, pwd⟩ : UserKey) = .error e →
      (getToken cacheTTL tokCache lookupAccount (some (username, pwd)) ip rc).2
          (⟨rc.registry.userID, username, pwd⟩ : UserKey) = some (.error e, cacheTTL)) ∧
    (∀ tok, tokCache (⟨rc.registry.userID, username, pwd⟩ : UserKey) = none →
      lookupAccount (⟨rc.registry.userID, username, pwd⟩ : UserKey) = .ok tok →
      (getToken cacheTTL tokCache lookupAccount (some (username, pwd)) ip rc).2
          (⟨rc.registry.userID, username, pwd⟩ : UserKey) =
        some (.ok tok,
          if rc.registry.data.ttlSecond > 0 then rc.registry.data.ttlSecond * second
          else cacheTTL)) ∧
    (∀ k entry, (getRegistry newMatcher cacheTTL regCache lookup service).2 k =
        some entry →
      regCache k = some entry ∨ entry.2 = cacheTTL ∨
        ∃ reg, lookup service = .ok reg ∧ entry.2 = reg.data.ttlSecond * second ∧
          entry.2 ≤ max cacheTTL (reg.data.ttlSecond * second)) := by
  refine ⟨?_, ?_, ?_, ?_, ?_⟩
  · intro e h1 h2
    simp [getRegistry, h1, h2, IMCCache.set]
  · intro reg h1 h2
    refine ⟨{ registry := reg,
              imagesMatcher := if reg.data.enableAllowlist then
                some (newMatcher reg.data.allowlist) else none }, ?_, rfl⟩
    simp [getRegistry, h1, h2, IMCCache.set]
  · intro e h1 h2
    simp only [getToken, h1, h2]
    simp [IMCCache.set]
  · intro tok h1 h2
    simp only [getToken, h1, h2]
    simp [IMCCache.set]
  · intro k entry hk
    simp only [getRegistry] at hk
    cases hc : regCache service with
    | some p =>
      rw [hc] at hk
      exact .inl hk
    | none =>
      rw [hc] at hk
      cases hl : lookup service with
      | error e =>
        rw [hl] at hk
        simp only [IMCCache.set] at hk
        by_cases hke : k = service
        · rw [if_pos hke] at hk
          cases hk
          exact .inr (.inl rfl)
        · rw [if_neg hke] at hk
          exact .inl hk
      | ok reg =>
        rw [hl] at hk
        simp only [IMCCache.set] at hk
        by_cases hke : k = service
        · rw [if_pos hke] at hk
          cases hk
          by_cases hpos : reg.data.ttlSecond > 0
          · refine .inr (.inr ⟨reg, rfl, ?_, ?_⟩) <;> simp [hpos, le_max_right]
          · exact .inr (.inl (by simp [hpos]))
        · rw [if_neg hke] at hk
          exact .inl hk

/-- Witness for C2's amended theorem: a registry with `ttl_seconds = 3600`
is cached for 3600 s, a lookup error for the 10 s default. -/
theorem policy_cache_ttl_witness :
    ((getRegistry (fun _ _ => false) (10 * second) IMCCache.empty
        (fun _ => .ok { registryID := 1, userID := 2, data := { ttlSecond := 3600 } })
        "svc").2 "svc").map (fun p => p.2) = some (3600 * second) ∧
      ((getRegistry (fun _ _ => false) (10 * second) IMCCache.empty
          (fun _ => .error "no such registry") "svc").2 "svc").map (fun p => p.2) =
        some (10 * second) := by
  constructor
  · obtain ⟨entry, he, -⟩ := (policy_cache_ttl (fun _ _ => false) (10 * second)
      IMCCache.empty IMCCache.empty
      (fun _ => .ok { registryID := 1, userID := 2, data := { ttlSecond := 3600 } })
      (fun _ => .error "x") "svc" "" "" ""
      { registry := {} }).2.1
      { registryID := 1, userID := 2, data := { ttlSecond := 3600 } } rfl rfl
    rw [he]
    norm_num
  · have he := (policy_cache_ttl (fun _ _ => false) (10 * second)
      IMCCache.empty IMCCache.empty (fun _ => .error "no such registry")
      (fun _ => .error "x") "svc" "" "" ""
      { registry := {} }).1 "no such registry" rfl rfl
    rw [he]
    rfl

/-! ### C1: manifest digest integrity -/

lemma manifestRevisionsCachePath_ne_blobCachePath (host image d b : String) :
    manifestRevisionsCachePath host image d ≠ blobCachePath b := by
  intro h
  have hd := congrArg (fun s => s.data.take 26) h
  simp only [manifestRevisionsCachePath, blobCachePath, String.data_append,
    List.append_assoc] at hd
  rw [List.take_append_of_le_length (by decide),
    List.take_append_of_le_length (by decide)] at hd
  exact absurd hd (by decide)

/-- C1: for a manifest fetch whose request reference is `sha256:X`, a hash
mismatch makes `cacheManifestContent` return an error with the state
untouched (no tag link, no revision link, no blob body written); on a
match the revision link and the blob body are written and nothing else, so
the bytes stored under the blob path for `X` hash to `X`. -/
theorem cacheManifestContent_digest_integrity (sha : Bytes → String)
    (dur now : Int) (st : ManifestState) (info : PathInfo) (content : Bytes)
    (X : String) (hpre : goStartsWith info.manifests "sha256:" = true)
    (hX : info.manifests.drop 7 = X) :
    (X ≠ sha content →
      cacheManifestContent sha dur now st info content =
        (some ("expected hash " ++ X ++ " is not same to " ++ sha content), st)) ∧
    (X = sha content →
      ∃ st2, cacheManifestContent sha dur now st info content = (none, st2) ∧
        st2.storage (manifestRevisionsCachePath info.host info.image (sha content)) =
          some ("sha256:" ++ sha content) ∧
        st2.storage (blobCachePath (sha content)) = some content ∧
        sha content = X ∧
        st2.fresh = st.fresh ∧
        (∀ k, k ≠ manifestRevisionsCachePath info.host info.image (sha content) →
          k ≠ blobCachePath (sha content) → st2.storage k = st.storage k)) := by
  constructor
  · intro hne
    simp only [cacheManifestContent, hpre, hX, Bool.true_and]
    rw [if_pos]
    simp [bne_iff_ne, hne]
  · intro heq
    subst heq
    refine ⟨⟨(st.storage.put
        (manifestRevisionsCachePath info.host info.image (sha content))
        ("sha256:" ++ sha content)).put (blobCachePath (sha content)) content,
      st.fresh⟩, ?_, ?_, ?_, rfl, rfl, ?_⟩
    · simp only [cacheManifestContent, hpre, hX, Bool.true_and]
      rw [if_neg (by simp)]
      simp
    · simp only [Storage.put]
      rw [if_neg (manifestRevisionsCachePath_ne_blobCachePath info.host info.image
        (sha content) (sha content))]
      simp
    · simp [Storage.put]
    · intro k hk1 hk2
      simp [Storage.put, hk1, hk2]

/-- Witness for C1 at a concrete hash function and reference: the mismatch
errors with nothing stored, the match stores the body under the hash. -/
theorem cacheManifestContent_digest_integrity_witness :
    (cacheManifestContent (fun _ => "cafe") 0 5
        ⟨Storage.empty, FreshMap.empty⟩
        { host := "h", image := "i", manifests := "sha256:dead" } "body" =
      (some "expected hash dead is not same to cafe",
        ⟨Storage.empty, FreshMap.empty⟩)) ∧
    (∃ st2, cacheManifestContent (fun _ => "cafe") 0 5
        ⟨Storage.empty, FreshMap.empty⟩
        { host := "h", image := "i", manifests := "sha256:cafe" } "body" =
          (none, st2) ∧
      st2.storage (blobCachePath "cafe") = some "body") := by
  constructor
  · exact (cacheManifestContent_digest_integrity (fun _ => "cafe") 0 5
      ⟨Storage.empty, FreshMap.empty⟩
      { host := "h", image := "i", manifests := "sha256:dead" } "body" "dead"
      (by decide) (by decide)).1 (by decide)
  · obtain ⟨st2, he, -, hblob, -⟩ := (cacheManifestContent_digest_integrity
      (fun _ => "cafe") 0 5 ⟨Storage.empty, FreshMap.empty⟩
      { host := "h", image := "i", manifests := "sha256:cafe" } "body" "cafe"
      (by decide) (by decide)).2 rfl
    exact ⟨st2, he, hblob⟩

/-! ### C7: cache-first gating -/

/-- Counterexample to C7 as stated: with `manifestCacheDuration = 0` (the
`CRProxy` default; `WithManifestCacheDuration` does not clamp it), a tag
request takes the cache-first path even though the freshness map holds no
timestamp for the tag link: the gate `!isHash && c.manifestCacheDuration > 0`
skips the freshness check entirely when the duration is not positive. -/
theorem tryFirstServe_tag_nofreshness_counterexample :
    (tryFirstServeCachedManifest (fun _ => some "mt")
        ((Storage.empty.put (manifestTagCachePath "h" "i" "latest") "sha256:ab").put
          (blobCachePath "sha256:ab") "body")
        FreshMap.empty 0 5 { host := "h", image := "i", manifests := "latest" }).1 =
      some ("sha256:ab", "mt", "body") ∧
    FreshMap.empty (manifestTagCachePath "h" "i" "latest") = none :=
  ⟨rfl, rfl⟩

/-- C7 (amended: the tag-side freshness gate applies only when
`manifest_cache_duration` is positive; with a non-positive duration the
cache-first path is attempted unconditionally for tags as well): sha256
references always go straight to the cached-serve attempt with no TTL or
freshness-map check; for tag references with a positive duration the
cache-first path is taken only when the freshness map holds a timestamp
within the duration of now, and otherwise the attempt reports a miss (so
the request proceeds to the origin); whenever the cache-first path serves,
it serves exactly the linked cached content. -/
theorem tryFirstServe_cache_first (pm : Bytes → Option String) (σ : Storage)
    (fresh : FreshMap) (dur now : Int) (info : PathInfo) :
    (goStartsWith info.manifests "sha256:" = true →
      tryFirstServeCachedManifest pm σ fresh dur now info =
        serveCachedManifest pm σ fresh dur now (manifestLinkPathFor info)) ∧
    (goStartsWith info.manifests "sha256:" = false → dur ≤ 0 →
      tryFirstServeCachedManifest pm σ fresh dur now info =
        serveCachedManifest pm σ fresh dur now (manifestLinkPathFor info)) ∧
    (goStartsWith info.manifests "sha256:" = false → 0 < dur →
      (∀ r, (tryFirstServeCachedManifest pm σ fresh dur now info).1 = some r →
        ∃ last, fresh (manifestLinkPathFor info) = some last ∧ now - last ≤ dur) ∧
      ((fresh (manifestLinkPathFor info) = none ∨
          (∃ last, fresh (manifestLinkPathFor info) = some last ∧ now - last > dur)) →
        (tryFirstServeCachedManifest pm σ fresh dur now info).1 = none) ∧
      (∀ last, fresh (manifestLinkPathFor info) = some last → now - last ≤ dur →
        tryFirstServeCachedManifest pm σ fresh dur now info =
          serveCachedManifest pm σ fresh dur now (manifestLinkPathFor info))) ∧
    ((tryFirstServeCachedManifest pm σ fresh dur now info).1 ≠ none →
      (tryFirstServeCachedManifest pm σ fresh dur now info).1 =
        lookupCachedManifest pm σ (manifestLinkPathFor info)) := by
  have hserve1 : ∀ p, (serveCachedManifest pm σ fresh dur now p).1 =
      lookupCachedManifest pm σ p := by
    intro p
    simp only [serveCachedManifest]
    cases lookupCachedManifest pm σ p <;> rfl
  refine ⟨?_, ?_, ?_, ?_⟩
  · intro h
    simp [tryFirstServeCachedManifest, h]
  · intro h hd
    simp [tryFirstServeCachedManifest, h, show ¬(dur > 0) by omega]
  · intro h hd
    have hcond : (!goStartsWith info.manifests "sha256:" && decide (dur > 0)) = true := by
      simp [h, hd]
    refine ⟨?_, ?_, ?_⟩
    · intro r hr
      simp only [tryFirstServeCachedManifest, hcond, if_true, eq_self_iff_true] at hr
      cases hf : fresh (manifestLinkPathFor info) with
      | none => simp [hf] at hr
      | some last =>
        by_cases hstale : now - last > dur
        · simp [hf, hstale] at hr
        · exact ⟨last, rfl, by omega⟩
    · intro hmiss
      simp only [tryFirstServeCachedManifest, hcond, if_true, eq_self_iff_true]
      rcases hmiss with hf | ⟨last, hf, hstale⟩
      · simp [hf]
      · simp [hf, hstale]
    · intro last hf hfresh
      simp only [tryFirstServeCachedManifest, hcond, if_true, eq_self_iff_true]
      simp [hf, show ¬(now - last > dur) by omega]
  · intro hne
    simp only [tryFirstServeCachedManifest] at hne ⊢
    by_cases hc : (!goStartsWith info.manifests "sha256:" && decide (dur > 0)) = true
    · simp only [hc, if_true, eq_self_iff_true] at hne ⊢
      cases hf : fresh (manifestLinkPathFor info) with
      | none => simp [hf] at hne
      | some last =>
        by_cases hstale : now - last > dur
        · simp [hf, hstale] at hne
        · simp only [hf]
          simp only [if_neg hstale]
          exact hserve1 _
    · rw [if_neg hc] at hne ⊢
      exact hserve1 _

/-- Witness for C7's amended theorem at concrete inputs: a sha256 reference
is served from the cache with the freshness map empty; a tag reference with
a positive duration and no freshness entry reports a miss. -/
theorem tryFirstServe_cache_first_witness :
    (tryFirstServeCachedManifest (fun _ => some "mt")
        ((Storage.empty.put (manifestRevisionsCachePath "h" "i" "ab") "sha256:ab").put
          (blobCachePath "sha256:ab") "body")
        FreshMap.empty (60 * second) 5
        { host := "h", image := "i", manifests := "sha256:ab" } =
      serveCachedManifest (fun _ => some "mt")
        ((Storage.empty.put (manifestRevisionsCachePath "h" "i" "ab") "sha256:ab").put
          (blobCachePath "sha256:ab") "body")
        FreshMap.empty (60 * second) 5
        (manifestLinkPathFor { host := "h", image := "i", manifests := "sha256:ab" })) ∧
    ((tryFirstServeCachedManifest (fun _ => some "mt")
        ((Storage.empty.put (manifestTagCachePath "h" "i" "latest") "sha256:ab").put
          (blobCachePath "sha256:ab") "body")
        FreshMap.empty (60 * second) 5
        { host := "h", image := "i", manifests := "latest" }).1 = none) := by
  constructor
  · exact (tryFirstServe_cache_first (fun _ => some "mt") _ FreshMap.empty
      (60 * second) 5 { host := "h", image := "i", manifests := "sha256:ab" }).1
      (by decide)
  · exact ((tryFirstServe_cache_first (fun _ => some "mt") _ FreshMap.empty
      (60 * second) 5 { host := "h", image := "i", manifests := "latest" }).2.2.1
      (by decide) (by norm_num [second])).2.1 (Or.inl rfl)

/-! ### C9: agent path acceptance and 404 routing -/

/-- The slash-separated segments of a path after its `/v2/` prefix, as
`parsePath` computes them. -/
def agentPathParts (path : String) : List String :=
  goSplit '/' (trimPrefix path "/v2/")

/-- C9: `parsePath` accepts exactly the paths with at least four
slash-separated segments after `/v2/`, second-to-last equal to `blobs` and
last beginning with `sha256:`, returning (first segment, middle segments
joined by `/`, digest); and on a GET of any other `/v2/`-prefixed path
(other than `/v2/` itself) the agent's `ServeHTTP` responds 404 Not
Found. -/
theorem parsePath_blobs_only (path : String) :
    (∀ src img dg, parsePath path = some (src, img, dg) ↔
      (4 ≤ (agentPathParts path).length ∧
       (agentPathParts path).getD ((agentPathParts path).length - 2) "" = "blobs" ∧
       goStartsWith ((agentPathParts path).getD ((agentPathParts path).length - 1) "")
         "sha256:" = true ∧
       src = (agentPathParts path).headD "" ∧
       img = String.intercalate "/"
         (((agentPathParts path).drop 1).take ((agentPathParts path).length - 3)) ∧
       dg = (agentPathParts path).getD ((agentPathParts path).length - 1) "")) ∧
    (∀ auth, goStartsWith path "/v2/" = true → path ≠ "/v2/" →
      parsePath path = none → agentServeHTTP "GET" path auth = .notFound) := by
  constructor
  · intro src img dg
    simp only [parsePath, agentPathParts]
    split_ifs with h1 h2 h3
    · constructor
      · intro h
        cases h
      · rintro ⟨hlen, -⟩
        omega
    · constructor
      · intro h
        cases h
      · rintro ⟨-, hb, -⟩
        rw [bne_iff_ne] at h2
        exact absurd hb h2
    · constructor
      · intro h
        cases h
      · rintro ⟨-, -, hs, -⟩
        rw [hs] at h3
        simp at h3
    · constructor
      · intro h
        rw [Option.some.injEq, Prod.mk.injEq, Prod.mk.injEq] at h
        obtain ⟨hsrc, himg, hdg⟩ := h
        refine ⟨by omega, ?_, ?_, hsrc.symm, himg.symm, hdg.symm⟩
        · rw [bne_iff_ne, not_not] at h2
          exact h2
        · simpa using h3
      · rintro ⟨-, -, -, rfl, rfl, rfl⟩
        rfl
  · intro auth hpre hne hfail
    simp [agentServeHTTP, hpre, hne, hfail]

/-- Witness for C9 at concrete paths: a well-formed blob path parses to its
components, and a manifest path draws 404 from the agent. -/
theorem parsePath_blobs_only_witness :
    parsePath "/v2/h.io/lib/img/blobs/sha256:abc" =
        some ("h.io", "lib/img", "sha256:abc") ∧
      agentServeHTTP "GET" "/v2/h.io/img/manifests/1" none = .notFound := by
  constructor
  · exact ((parsePath_blobs_only "/v2/h.io/lib/img/blobs/sha256:abc").1
      "h.io" "lib/img" "sha256:abc").mpr (by decide)
  · exact (parsePath_blobs_only "/v2/h.io/img/manifests/1").2 none
      (by decide) (by decide) (by decide)

/-! ### C3: fallback semantics of the manifest path -/

lemma serveCachedManifest_fst (pm : Bytes → Option String) (σ : Storage)
    (fresh : FreshMap) (dur now : Int) (p : String) :
    (serveCachedManifest pm σ fresh dur now p).1 = lookupCachedManifest pm σ p := by
  simp only [serveCachedManifest]
  cases lookupCachedManifest pm σ p <;> rfl

lemma manifestLinkPathFor_tag (info : PathInfo)
    (h : goStartsWith info.manifests "sha256:" = false) :
    manifestLinkPathFor info =
      manifestTagCachePath info.host info.image info.manifests := by
  simp [manifestLinkPathFor, h]

lemma manifestLinkPathFor_hash (info : PathInfo)
    (h : goStartsWith info.manifests "sha256:" = true) :
    manifestLinkPathFor info =
      manifestRevisionsCachePath info.host info.image (info.manifests.drop 7) := by
  simp [manifestLinkPathFor, h]

lemma fallbackServe_tag (pm : Bytes → Option String) (σ : Storage)
    (fresh : FreshMap) (dur now : Int) (info : PathInfo)
    (h : goStartsWith info.manifests "sha256:" = false) :
    fallbackServeCachedManifest pm σ fresh dur now info =
      serveCachedManifest pm σ fresh dur now (manifestLinkPathFor info) := by
  simp [fallbackServeCachedManifest, h]

lemma fallbackServe_hash (pm : Bytes → Option String) (σ : Storage)
    (fresh : FreshMap) (dur now : Int) (info : PathInfo)
    (h : goStartsWith info.manifests "sha256:" = true) :
    fallbackServeCachedManifest pm σ fresh dur now info = (none, fresh) := by
  simp [fallbackServeCachedManifest, h]

lemma tryFirstServe_fst_none_or (pm : Bytes → Option String) (σ : Storage)
    (fresh : FreshMap) (dur now : Int) (info : PathInfo) :
    (tryFirstServeCachedManifest pm σ fresh dur now info).1 = none ∨
      (tryFirstServeCachedManifest pm σ fresh dur now info).1 =
        lookupCachedManifest pm σ (manifestLinkPathFor info) := by
  simp only [tryFirstServeCachedManifest]
  by_cases hc : (!goStartsWith info.manifests "sha256:" && decide (dur > 0)) = true
  · simp only [hc, if_true, eq_self_iff_true]
    cases hf : fresh (manifestLinkPathFor info) with
    | none => exact .inl rfl
    | some last =>
      by_cases hstale : now - last > dur
      · simp [hstale]
      · simp only [if_neg hstale]
        exact .inr (serveCachedManifest_fst pm σ fresh dur now _)
  · rw [if_neg hc]
    exact .inr (serveCachedManifest_fst pm σ fresh dur now _)

/-- The upstream outcomes claim C3 counts as failures: a transport error,
or a 4xx or 5xx status. -/
def originFails (o : Origin) : Prop :=
  o = .transportErr ∨ ∃ s b, o = .resp s b ∧
    (s = 401 ∨ s = 403 ∨ (400 ≤ s ∧ s < 500) ∨ 500 ≤ s)

/-- C3: for a GET manifest request — (a) when the origin fails (transport
error, 401/403, other 4xx, or 5xx) and a cached entry for the requested
tag exists (tag link resolving to a body with a parsable media type), the
client receives the cached manifest with status 200; (b) when no cached
entry exists for the requested reference, the upstream outcome is
surfaced (transport error → UNKNOWN, 401/403 → DENIED, any other status
forwarded as-is); (c) for a sha256 reference with no revision link in the
cache, cached content is never served as a fallback and the origin status
is returned. -/
theorem cacheManifestResponse_fallback (sha : Bytes → String)
    (pm : Bytes → Option String) (dur now : Int) (st : ManifestState)
    (info : PathInfo) (origin : Origin) :
    (goStartsWith info.manifests "sha256:" = false →
      ∀ d mt c, lookupCachedManifest pm st.storage
          (manifestTagCachePath info.host info.image info.manifests) =
            some (d, mt, c) →
        originFails origin →
        (cacheManifestResponse sha pm dur now st info origin false).1 =
            .cachedServe d mt c ∧
          ((cacheManifestResponse sha pm dur now st info origin false).1).status =
            200) ∧
    (lookupCachedManifest pm st.storage (manifestLinkPathFor info) = none →
      (origin = .transportErr →
        (cacheManifestResponse sha pm dur now st info origin false).1 =
          .errorJson "UNKNOWN") ∧
      (∀ s b, origin = .resp s b → (s = 401 ∨ s = 403) →
        (cacheManifestResponse sha pm dur now st info origin false).1 =
          .errorJson "DENIED") ∧
      (∀ s b, origin = .resp s b → ¬(s = 401 ∨ s = 403) →
        ∃ ce, (cacheManifestResponse sha pm dur now st info origin false).1 =
          .forwarded s ce)) ∧
    (goStartsWith info.manifests "sha256:" = true →
      st.storage (manifestRevisionsCachePath info.host info.image
        (info.manifests.drop 7)) = none →
      (∀ d mt c, (cacheManifestResponse sha pm dur now st info origin false).1 ≠
        .cachedServe d mt c) ∧
      (∀ s b, origin = .resp s b → ¬(s = 401 ∨ s = 403) →
        ∃ ce, (cacheManifestResponse sha pm dur now st info origin false).1 =
            .forwarded s ce ∧
          ((cacheManifestResponse sha pm dur now st info origin false).1).status =
            s)) := by
  have hsurface : lookupCachedManifest pm st.storage (manifestLinkPathFor info) =
      none →
      (origin = .transportErr →
        (cacheManifestResponse sha pm dur now st info origin false).1 =
          .errorJson "UNKNOWN") ∧
      (∀ s b, origin = .resp s b → (s = 401 ∨ s = 403) →
        (cacheManifestResponse sha pm dur now st info origin false).1 =
          .errorJson "DENIED") ∧
      (∀ s b, origin = .resp s b → ¬(s = 401 ∨ s = 403) →
        ∃ ce, (cacheManifestResponse sha pm dur now st info origin false).1 =
          .forwarded s ce) := by
    intro hmiss
    have hT1 : (tryFirstServeCachedManifest pm st.storage st.fresh dur now info).1 =
        none := by
      rcases tryFirstServe_fst_none_or pm st.storage st.fresh dur now info with h | h
      · exact h
      · rw [h, hmiss]
    have hF1 : (fallbackServeCachedManifest pm st.storage st.fresh dur now info).1 =
        none := by
      cases hh : goStartsWith info.manifests "sha256:" with
      | true => rw [fallbackServe_hash pm st.storage st.fresh dur now info hh]
      | false =>
        rw [fallbackServe_tag pm st.storage st.fresh dur now info hh,
          serveCachedManifest_fst, hmiss]
    rcases hT : tryFirstServeCachedManifest pm st.storage st.fresh dur now info
      with ⟨o, f2⟩
    rw [hT] at hT1
    subst hT1
    rcases hF : fallbackServeCachedManifest pm st.storage st.fresh dur now info
      with ⟨fo, ff⟩
    rw [hF] at hF1
    subst hF1
    refine ⟨?_, ?_, ?_⟩
    · intro ho
      subst ho
      simp only [cacheManifestResponse, hT, hF]
    · intro s b ho hs
      subst ho
      have hsb : (decide (s = 401) || decide (s = 403)) = true := by
        rcases hs with h | h <;> simp [h]
      simp only [cacheManifestResponse, hT, hsb, if_true, eq_self_iff_true, hF]
    · intro s b ho hs
      subst ho
      have hsb : (decide (s = 401) || decide (s = 403)) = false := by
        simp only [Bool.or_eq_false_iff, decide_eq_false_iff_not]
        exact ⟨fun h => hs (Or.inl h), fun h => hs (Or.inr h)⟩
      rcases hC : cacheManifestContent sha dur now st info b with ⟨ce, st2⟩
      refine ⟨ce, ?_⟩
      by_cases htf : (400 ≤ s ∧ s < 500) ∨ (s < 200 ∨ 500 ≤ s)
      · simp only [cacheManifestResponse, hT, hsb, Bool.false_eq_true, if_false,
          if_pos htf, hF, hC]
        cases ce <;> rfl
      · simp only [cacheManifestResponse, hT, hsb, Bool.false_eq_true, if_false,
          if_neg htf, hC]
        cases ce <;> rfl
  refine ⟨?_, hsurface, ?_⟩
  · intro htag d mt c hlookup hfail
    have hpath : manifestLinkPathFor info =
        manifestTagCachePath info.host info.image info.manifests :=
      manifestLinkPathFor_tag info htag
    have hres : (cacheManifestResponse sha pm dur now st info origin false).1 =
        .cachedServe d mt c := by
      rcases hT : tryFirstServeCachedManifest pm st.storage st.fresh dur now info
        with ⟨o, f2⟩
      cases o with
      | some r =>
        obtain ⟨rd, rmt, rc⟩ := r
        have h1 : (tryFirstServeCachedManifest pm st.storage st.fresh dur
            now info).1 = some (rd, rmt, rc) := by rw [hT]
        rcases tryFirstServe_fst_none_or pm st.storage st.fresh dur now info with
          h2 | h2
        · rw [h1] at h2
          cases h2
        · rw [h1, hpath, hlookup] at h2
          simp only [Option.some.injEq, Prod.mk.injEq] at h2
          obtain ⟨rfl, rfl, rfl⟩ := h2
          simp only [cacheManifestResponse, hT]
      | none =>
        have hfb1 : (fallbackServeCachedManifest pm st.storage st.fresh dur
            now info).1 = some (d, mt, c) := by
          rw [fallbackServe_tag pm st.storage st.fresh dur now info htag,
            serveCachedManifest_fst, hpath, hlookup]
        rcases hfb : fallbackServeCachedManifest pm st.storage st.fresh dur now info
          with ⟨fo, ff⟩
        rw [hfb] at hfb1
        subst hfb1
        rcases hfail with ho | ⟨s, b, ho, hs⟩
        · subst ho
          simp only [cacheManifestResponse, hT, hfb]
        · subst ho
          by_cases hsb : (decide (s = 401) || decide (s = 403)) = true
          · simp only [cacheManifestResponse, hT, hsb, if_true, eq_self_iff_true, hfb]
          · rw [Bool.not_eq_true] at hsb
            have htf : (400 ≤ s ∧ s < 500) ∨ (s < 200 ∨ 500 ≤ s) := by
              rcases hs with h | h | h | h
              · rw [h] at hsb
                simp at hsb
              · rw [h] at hsb
                simp at hsb
              · exact Or.inl h
              · exact Or.inr (Or.inr h)
            simp only [cacheManifestResponse, hT, hsb, Bool.false_eq_true, if_false,
              if_pos htf, hfb]
    exact ⟨hres, by rw [hres]; rfl⟩
  · intro hsha hrev
    have hmiss : lookupCachedManifest pm st.storage (manifestLinkPathFor info) =
        none := by
      rw [manifestLinkPathFor_hash info hsha]
      simp only [lookupCachedManifest, hrev]
    have hs := hsurface hmiss
    constructor
    · intro d mt c
      cases origin with
      | transportErr =>
        rw [hs.1 rfl]
        simp
      | resp s b =>
        by_cases hsb : s = 401 ∨ s = 403
        · rw [hs.2.1 s b rfl hsb]
          simp
        · obtain ⟨ce, hce⟩ := hs.2.2 s b rfl hsb
          rw [hce]
          simp
    · intro s b ho hsb
      subst ho
      obtain ⟨ce, hce⟩ := hs.2.2 s b rfl hsb
      refine ⟨ce, hce, ?_⟩
      rw [hce]
      rfl

/-- Witness for C3 at concrete inputs: an origin 503 with a cached tag
entry serves the cached manifest with status 200; with an empty cache the
503 is forwarded. -/
theorem cacheManifestResponse_fallback_witness :
    ((cacheManifestResponse (fun _ => "ab") (fun _ => some "mt") 0 5
        ⟨(Storage.empty.put (manifestTagCachePath "h" "i" "latest") "sha256:ab").put
          (blobCachePath "sha256:ab") "body", FreshMap.empty⟩
        { host := "h", image := "i", manifests := "latest" }
        (.resp 503 "oops") false).1 = .cachedServe "sha256:ab" "mt" "body") ∧
    (∃ ce, (cacheManifestResponse (fun _ => "ab") (fun _ => some "mt") 0 5
        ⟨Storage.empty, FreshMap.empty⟩
        { host := "h", image := "i", manifests := "latest" }
        (.resp 503 "oops") false).1 = .forwarded 503 ce) := by
  constructor
  · exact ((cacheManifestResponse_fallback (fun _ => "ab") (fun _ => some "mt") 0 5
      ⟨(Storage.empty.put (manifestTagCachePath "h" "i" "latest") "sha256:ab").put
        (blobCachePath "sha256:ab") "body", FreshMap.empty⟩
      { host := "h", image := "i", manifests := "latest" }
      (.resp 503 "oops")).1 (by decide) "sha256:ab" "mt" "body" (by decide)
      (Or.inr ⟨503, "oops", rfl, by norm_num⟩)).1
  · exact ((cacheManifestResponse_fallback (fun _ => "ab") (fun _ => some "mt") 0 5
      ⟨Storage.empty, FreshMap.empty⟩
      { host := "h", image := "i", manifests := "latest" }
      (.resp 503 "oops")).2.1 rfl).2.2 503 "oops" rfl (by norm_num)
end OpenCIDN
